import Mathlib

/-!
Verification development for the media transcoding core:
the session scheduler (TranscodingSessionController) and the
single-track video pipeline (VideoTrackTranscoder).

The C++ sources are shallowly embedded: the scheduler's mutable state is a
record threaded through each public operation, outgoing calls to the
TranscoderInterface / UidPolicy / client callbacks are reified as an effect
trace, and the pipeline's serialized message loop runs over an explicit
message list with codec and reader responses supplied as message payloads.
-/

namespace TSC

/-- ClientIdType (int64). -/
abbrev ClientId := Int
/-- SessionIdType (int32, signed: cancel uses sessionId less than 0). -/
abbrev SessionId := Int
/-- SessionKeyType = pair of client id and session id. -/
abbrev SessionKey := ClientId × SessionId

/-- uid_t. -/
abbrev Uid := Nat
/-- OFFLINE_UID = (uid_t)-1 on a 32-bit uid_t. -/
def OFFLINE_UID : Uid := 4294967295

/-- Session::State. -/
inductive SessionState
  | NOT_STARTED
  | RUNNING
  | PAUSED
  deriving DecidableEq, Repr

/-- TranscodingSessionPriority: only the kUnspecified test matters to the
controller, all other priorities behave alike (kNormal stands for them). -/
inductive TranscodingSessionPriority
  | kUnspecified
  | kNormal
  deriving DecidableEq, Repr

/-- TranscodingRequestParcel, restricted to the field the controller reads. -/
structure TranscodingRequest where
  priority : TranscodingSessionPriority
  deriving DecidableEq, Repr

/-- Session record (key, uid, state, lastProgress, request, callback).
The weak client callback is modelled by whether lock() succeeds. -/
structure Session where
  key : SessionKey
  uid : Uid
  state : SessionState
  lastProgress : Int
  request : TranscodingRequest
  cbAlive : Bool
  deriving DecidableEq, Repr

/-- Outgoing calls made by the controller: TranscoderInterface calls,
UidPolicy monitor registration, and client callback notifications. -/
inductive Effect
  | start (clientId : ClientId) (sessionId : SessionId)
  | pause (clientId : ClientId) (sessionId : SessionId)
  | resume (clientId : ClientId) (sessionId : SessionId)
  | stop (clientId : ClientId) (sessionId : SessionId)
  | registerMonitorUid (uid : Uid)
  | unregisterMonitorUid (uid : Uid)
  | notifyStarted (sessionId : SessionId)
  | notifyPaused (sessionId : SessionId)
  | notifyResumed (sessionId : SessionId)
  | notifyFinished (sessionId : SessionId)
  | notifyFailed (sessionId : SessionId) (err : Int)
  | notifyProgress (sessionId : SessionId) (progress : Int)
  deriving DecidableEq, Repr

/-- Responses of the UidPolicyInterface collaborator during one locked
operation: isUidOnTop queries and the getTopUids set. -/
structure UidPolicyEnv where
  isUidOnTop : Uid → Bool
  topUids : Finset Uid

/-- Association-list lookup (std::map find). -/
def alookup {α β : Type} [DecidableEq α] : List (α × β) → α → Option β
  | [], _ => none
  | (k, v) :: t, a => if a = k then some v else alookup t a

/-- Association-list write (std::map operator[] assignment): replaces the
entry in place if the key is present, appends it otherwise. -/
def aupdate {α β : Type} [DecidableEq α] : List (α × β) → α → β → List (α × β)
  | [], a, b => [(a, b)]
  | (k, v) :: t, a, b => if k = a then (a, b) :: t else (k, v) :: aupdate t a b

/-- Association-list erase by key (std::map erase). -/
def aerase {α β : Type} [DecidableEq α] (l : List (α × β)) (a : α) : List (α × β) :=
  l.filter (fun e => e.1 ≠ a)

/-- Controller state: mSessionMap, mSessionQueues, mUidSortedList,
mCurrentSession, mResourceLost. mCurrentSession is a pointer into
mSessionMap, modelled by the pointed-to session's key. The saved
mOfflineUidIterator always designates the OFFLINE_UID node of
mUidSortedList, so an insert before it is an insert before that element. -/
structure Sched where
  mSessionMap : List (SessionKey × Session)
  mSessionQueues : List (Uid × List SessionKey)
  mUidSortedList : List Uid
  mCurrentSession : Option SessionKey
  mResourceLost : Bool
  deriving DecidableEq, Repr

/-- Constructor: only the empty offline queue initially. -/
def initialController : Sched :=
  { mSessionMap := []
    mSessionQueues := [(OFFLINE_UID, [])]
    mUidSortedList := [OFFLINE_UID]
    mCurrentSession := none
    mResourceLost := false }

/-- The session queue of a uid (std::map operator[] read; the queue is
present whenever the controller dereferences it). -/
def queueOf (st : Sched) (u : Uid) : List SessionKey :=
  (alookup st.mSessionQueues u).getD []

/-- TranscodingSessionController::getTopSession_l: null when the map is
empty, else the first key in the first uid's queue. The source dereferences
both begin() iterators; the Option result totalizes the two dereferences. -/
def getTopSession_l (st : Sched) : Option SessionKey :=
  if st.mSessionMap.isEmpty then none
  else
    match st.mUidSortedList with
    | [] => none
    | topUid :: _ => (queueOf st topUid).head?

/-- The pause-current-session step of updateCurrentSession_l: if another
session is currently running, pause it first. -/
def pauseCurrentIfRunning (st : Sched) : Sched × List Effect :=
  match st.mCurrentSession with
  | none => (st, [])
  | some curKey =>
    match alookup st.mSessionMap curKey with
    | none => (st, [])
    | some curS =>
      if curS.state = SessionState.RUNNING then
        ({ st with mSessionMap :=
             aupdate st.mSessionMap curKey { curS with state := SessionState.PAUSED } },
         [Effect.pause curKey.1 curKey.2])
      else (st, [])

/-- The start-or-resume step of updateCurrentSession_l: start a NOT_STARTED
top session, resume a PAUSED one, and mark it RUNNING. -/
def startOrResumeTop (st : Sched) (topKey : SessionKey) : Sched × List Effect :=
  match alookup st.mSessionMap topKey with
  | none => (st, [])
  | some ts =>
    let effs :=
      if ts.state = SessionState.NOT_STARTED then [Effect.start topKey.1 topKey.2]
      else if ts.state = SessionState.PAUSED then [Effect.resume topKey.1 topKey.2]
      else []
    ({ st with mSessionMap :=
         aupdate st.mSessionMap topKey { ts with state := SessionState.RUNNING } },
     effs)

/-- The body of updateCurrentSession_l, split on the computed top session. -/
def updateCurrentGo (st : Sched) : Option SessionKey → Sched × List Effect
  | none => ({ st with mCurrentSession := none }, [])
  | some topKey =>
    if some topKey ≠ st.mCurrentSession ∨
        (alookup st.mSessionMap topKey).map Session.state ≠ some SessionState.RUNNING then
      if (pauseCurrentIfRunning st).1.mResourceLost then
        ({ (pauseCurrentIfRunning st).1 with mCurrentSession := some topKey },
         (pauseCurrentIfRunning st).2)
      else
        ({ (startOrResumeTop (pauseCurrentIfRunning st).1 topKey).1 with
            mCurrentSession := some topKey },
         (pauseCurrentIfRunning st).2 ++
           (startOrResumeTop (pauseCurrentIfRunning st).1 topKey).2)
    else ({ st with mCurrentSession := some topKey }, [])

/-- TranscodingSessionController::updateCurrentSession_l. -/
def updateCurrentSession_l (st : Sched) : Sched × List Effect :=
  updateCurrentGo st (getTopSession_l st)

/-- The scan loop of moveUidsToTop_l over the remainder of mUidSortedList.
Returns the uids moved to the front (in final front-to-back order), the
untouched elements in original order, and the pushCurTopToFront flag.
Eligible uids are erased and pushed to the front (each in front of the
previously pushed ones); the scan breaks once numUidsMoved reaches the
size of the uid set. -/
def moveUidsLoop (uids : Finset Uid) (curTopUid : Uid) (preserveTopUid : Bool)
    (target : Nat) : List Uid → Nat → List Uid × List Uid × Bool
  | [], _ => ([], [], false)
  | u :: t, numUidsMoved =>
    if u ≠ OFFLINE_UID ∧ u ∈ uids then
      let isTop : Bool := u == curTopUid && preserveTopUid
      if numUidsMoved + 1 = target then
        ((if isTop then [] else [u]), t, isTop)
      else
        let r := moveUidsLoop uids curTopUid preserveTopUid target t (numUidsMoved + 1)
        ((if isTop then r.1 else r.1 ++ [u]), r.2.1, r.2.2 || isTop)
    else
      let r := moveUidsLoop uids curTopUid preserveTopUid target t numUidsMoved
      (r.1, u :: r.2.1, r.2.2)

/-- TranscodingSessionController::moveUidsToTop_l. -/
def moveUidsToTop_l (uids : Finset Uid) (preserveTopUid : Bool) (l : List Uid) : List Uid :=
  if uids = ∅ then l
  else
    match l with
    | [] => l
    | curTopUid :: _ =>
      let r := moveUidsLoop uids curTopUid preserveTopUid uids.card l 0
      (if r.2.2 then curTopUid :: r.1 else r.1) ++ r.2.1

/-- std::list insert before the saved OFFLINE iterator: insert immediately
before the OFFLINE_UID element. -/
def insertBeforeOffline : List Uid → Uid → List Uid
  | [], u => [u]
  | x :: t, u => if x = OFFLINE_UID then u :: x :: t else x :: insertBeforeOffline t u

/-- Clearing mCurrentSession when the removed session was current. -/
def removeClearCur (sessionKey : SessionKey) (st : Sched) : Sched :=
  if st.mCurrentSession = some sessionKey then { st with mCurrentSession := none } else st

/-- The queue-update step of removeSession_l: erase the key from its uid's
queue; when a real-time queue becomes empty, drop the queue, remove the
uid from the sorted list, unregister it, and re-apply the top-uid set. -/
def removeFromQueues (env : UidPolicyEnv) (st : Sched) (sessionKey : SessionKey)
    (uid : Uid) : Sched × List Effect :=
  if uid ≠ OFFLINE_UID ∧ (queueOf st uid).erase sessionKey = [] then
    ({ st with
        mSessionQueues :=
          aerase (aupdate st.mSessionQueues uid ((queueOf st uid).erase sessionKey)) uid
        mUidSortedList :=
          moveUidsToTop_l env.topUids false
            (st.mUidSortedList.filter (fun x => x ≠ uid)) },
     [Effect.unregisterMonitorUid uid])
  else
    ({ st with
        mSessionQueues :=
          aupdate st.mSessionQueues uid ((queueOf st uid).erase sessionKey) },
     ([] : List Effect))

/-- The body of removeSession_l, split on the session lookup. -/
def removeGo (env : UidPolicyEnv) (st : Sched) (sessionKey : SessionKey) :
    Option Session → Sched × List Effect
  | none => (st, [])
  | some sess =>
    if sessionKey ∈ queueOf st sess.uid then
      ({ removeClearCur sessionKey (removeFromQueues env st sessionKey sess.uid).1 with
          mSessionMap :=
            aerase (removeClearCur sessionKey
              (removeFromQueues env st sessionKey sess.uid).1).mSessionMap sessionKey },
       (removeFromQueues env st sessionKey sess.uid).2)
    else (st, [])

/-- TranscodingSessionController::removeSession_l. -/
def removeSession_l (env : UidPolicyEnv) (st : Sched) (sessionKey : SessionKey) :
    Sched × List Effect :=
  removeGo env st sessionKey (alookup st.mSessionMap sessionKey)

/-- The effective uid of a submission: kUnspecified requests are routed to
the OFFLINE queue regardless of the submitting uid. -/
def submitUid (uid0 : Uid) (request : TranscodingRequest) : Uid :=
  if request.priority = TranscodingSessionPriority.kUnspecified then OFFLINE_UID else uid0

/-- The session record created by submit. -/
def submitSess (sessionKey : SessionKey) (uid : Uid) (request : TranscodingRequest)
    (cbAlive : Bool) : Session :=
  { key := sessionKey, uid := uid, state := SessionState.NOT_STARTED
    lastProgress := 0, request := request, cbAlive := cbAlive }

/-- The mUidSortedList maintenance of submit for a real-time uid: register
a new uid (front if on top, else just before OFFLINE); move an existing
non-front uid to the front if it is on top. -/
def submitStep (env : UidPolicyEnv) (st : Sched) (uid : Uid) : List Uid × List Effect :=
  if uid ≠ OFFLINE_UID then
    if (alookup st.mSessionQueues uid).isNone then
      if env.isUidOnTop uid then
        (uid :: st.mUidSortedList, [Effect.registerMonitorUid uid])
      else
        (insertBeforeOffline st.mUidSortedList uid, [Effect.registerMonitorUid uid])
    else if st.mUidSortedList.head? ≠ some uid then
      if env.isUidOnTop uid then
        (uid :: st.mUidSortedList.filter (fun x => x ≠ uid), [])
      else (st.mUidSortedList, [])
    else (st.mUidSortedList, [])
  else (st.mUidSortedList, [])

/-- The controller state after submit's bookkeeping, before the current
session is re-evaluated. -/
def submitState (env : UidPolicyEnv) (st : Sched) (clientId : ClientId)
    (sessionId : SessionId) (uid0 : Uid) (request : TranscodingRequest)
    (cbAlive : Bool) : Sched :=
  { st with
      mSessionMap := aupdate st.mSessionMap (clientId, sessionId)
        (submitSess (clientId, sessionId) (submitUid uid0 request) request cbAlive)
      mSessionQueues := aupdate st.mSessionQueues (submitUid uid0 request)
        (queueOf st (submitUid uid0 request) ++ [(clientId, sessionId)])
      mUidSortedList := (submitStep env st (submitUid uid0 request)).1 }

/-- TranscodingSessionController::submit. Returns (result, new state,
effect trace). -/
def submit (env : UidPolicyEnv) (st : Sched) (clientId : ClientId)
    (sessionId : SessionId) (uid0 : Uid) (request : TranscodingRequest)
    (cbAlive : Bool) : Bool × Sched × List Effect :=
  if (alookup st.mSessionMap (clientId, sessionId)).isSome then (false, st, [])
  else
    (true,
     (updateCurrentSession_l (submitState env st clientId sessionId uid0 request cbAlive)).1,
     (submitStep env st (submitUid uid0 request)).2 ++
       (updateCurrentSession_l (submitState env st clientId sessionId uid0 request cbAlive)).2)

/-- The transcoder stop call of the cancel loop: issued for a session that
has ever been started. -/
def cancelStopEffs (st : Sched) (k : SessionKey) : List Effect :=
  match alookup st.mSessionMap k with
  | some s => if s.state ≠ SessionState.NOT_STARTED then [Effect.stop k.1 k.2] else []
  | none => []

/-- The removal loop of cancel: for each collected session, stop it if it
has ever been started, then remove it. -/
def cancelLoop (env : UidPolicyEnv) : Sched → List SessionKey → List Effect →
    Sched × List Effect
  | st, [], effs => (st, effs)
  | st, k :: rest, effs =>
    cancelLoop env (removeSession_l env st k).1 rest
      (effs ++ cancelStopEffs st k ++ (removeSession_l env st k).2)

/-- The sessions collected by cancel with a negative session id: every
session of the client whose uid is not OFFLINE. -/
def cancelKeys (st : Sched) (clientId : ClientId) : List SessionKey :=
  (st.mSessionMap.filter
    (fun e => e.1.1 = clientId ∧ e.2.uid ≠ OFFLINE_UID)).map Prod.fst

/-- TranscodingSessionController::cancel. A negative sessionId cancels all
real-time (non-OFFLINE) sessions of the client. -/
def cancel (env : UidPolicyEnv) (st : Sched) (clientId : ClientId)
    (sessionId : SessionId) : Bool × Sched × List Effect :=
  if sessionId < 0 then
    (true,
     (updateCurrentSession_l (cancelLoop env st (cancelKeys st clientId) []).1).1,
     (cancelLoop env st (cancelKeys st clientId) []).2 ++
       (updateCurrentSession_l (cancelLoop env st (cancelKeys st clientId) []).1).2)
  else
    if (alookup st.mSessionMap (clientId, sessionId)).isNone then (false, st, [])
    else
      (true,
       (updateCurrentSession_l (cancelLoop env st [(clientId, sessionId)] []).1).1,
       (cancelLoop env st [(clientId, sessionId)] []).2 ++
         (updateCurrentSession_l (cancelLoop env st [(clientId, sessionId)] []).1).2)

/-- The body of notifyClient, split on the session lookup. -/
def notifyGo (st : Sched) (sessionKey : SessionKey)
    (func : Sched → SessionKey → Session → Sched × List Effect) :
    Option Session → Sched × List Effect
  | none => (st, [])
  | some s =>
    if s.state = SessionState.NOT_STARTED then (st, [])
    else func st sessionKey s

/-- TranscodingSessionController::notifyClient: drop events for sessions
that do not exist or were never started, else run the per-event body. -/
def notifyClient (st : Sched) (clientId : ClientId) (sessionId : SessionId)
    (func : Sched → SessionKey → Session → Sched × List Effect) : Sched × List Effect :=
  notifyGo st (clientId, sessionId) func (alookup st.mSessionMap (clientId, sessionId))

/-- TranscodingSessionController::onStarted. -/
def onStarted (st : Sched) (clientId : ClientId) (sessionId : SessionId) :
    Sched × List Effect :=
  notifyClient st clientId sessionId (fun st _ sess =>
    (st, if sess.cbAlive then [Effect.notifyStarted sessionId] else []))

/-- TranscodingSessionController::onPaused. -/
def onPaused (st : Sched) (clientId : ClientId) (sessionId : SessionId) :
    Sched × List Effect :=
  notifyClient st clientId sessionId (fun st _ sess =>
    (st, if sess.cbAlive then [Effect.notifyPaused sessionId] else []))

/-- TranscodingSessionController::onResumed. -/
def onResumed (st : Sched) (clientId : ClientId) (sessionId : SessionId) :
    Sched × List Effect :=
  notifyClient st clientId sessionId (fun st _ sess =>
    (st, if sess.cbAlive then [Effect.notifyResumed sessionId] else []))

/-- TranscodingSessionController::onFinish: notify the client, remove the
session, start the next session. -/
def onFinish (env : UidPolicyEnv) (st : Sched) (clientId : ClientId)
    (sessionId : SessionId) : Sched × List Effect :=
  notifyClient st clientId sessionId (fun st k sess =>
    ((updateCurrentSession_l (removeSession_l env st k).1).1,
     (if sess.cbAlive then [Effect.notifyFinished sessionId] else []) ++
       (removeSession_l env st k).2 ++
       (updateCurrentSession_l (removeSession_l env st k).1).2))

/-- TranscodingSessionController::onError. -/
def onError (env : UidPolicyEnv) (st : Sched) (clientId : ClientId)
    (sessionId : SessionId) (err : Int) : Sched × List Effect :=
  notifyClient st clientId sessionId (fun st k sess =>
    ((updateCurrentSession_l (removeSession_l env st k).1).1,
     (if sess.cbAlive then [Effect.notifyFailed sessionId err] else []) ++
       (removeSession_l env st k).2 ++
       (updateCurrentSession_l (removeSession_l env st k).1).2))

/-- TranscodingSessionController::onProgressUpdate. -/
def onProgressUpdate (st : Sched) (clientId : ClientId) (sessionId : SessionId)
    (progress : Int) : Sched × List Effect :=
  notifyClient st clientId sessionId (fun st k sess =>
    ({ st with mSessionMap := aupdate st.mSessionMap k { sess with lastProgress := progress } },
     if sess.cbAlive then [Effect.notifyProgress sessionId progress] else []))

/-- The pause-and-notify step of onResourceLost: a running current session
is marked paused (without a transcoder call) and its client is notified. -/
def resourceLostPause (st : Sched) : Sched × List Effect :=
  match st.mCurrentSession with
  | none => (st, [])
  | some curKey =>
    match alookup st.mSessionMap curKey with
    | none => (st, [])
    | some curS =>
      if curS.state = SessionState.RUNNING then
        ({ st with mSessionMap :=
             aupdate st.mSessionMap curKey { curS with state := SessionState.PAUSED } },
         if curS.cbAlive then [Effect.notifyPaused curS.key.2] else [])
      else (st, [])

/-- TranscodingSessionController::onResourceLost: idempotent; mark the
running current session paused (no transcoder call) and set the flag. -/
def onResourceLost (st : Sched) : Sched × List Effect :=
  if st.mResourceLost then (st, [])
  else
    ({ (resourceLostPause st).1 with mResourceLost := true }, (resourceLostPause st).2)

/-- TranscodingSessionController::onTopUidsChanged. -/
def onTopUidsChanged (st : Sched) (uids : Finset Uid) : Sched × List Effect :=
  if uids = ∅ then (st, [])
  else
    updateCurrentSession_l
      { st with mUidSortedList := moveUidsToTop_l uids true st.mUidSortedList }

/-- TranscodingSessionController::onResourceAvailable. -/
def onResourceAvailable (st : Sched) : Sched × List Effect :=
  if !st.mResourceLost then (st, [])
  else updateCurrentSession_l { st with mResourceLost := false }

/-- One public controller operation, with arbitrary collaborator responses. -/
inductive SchedStep : Sched → Sched → Prop
  | submit (st : Sched) (env : UidPolicyEnv) (c : ClientId) (sid : SessionId)
      (uid : Uid) (req : TranscodingRequest) (cb : Bool) :
      SchedStep st (submit env st c sid uid req cb).2.1
  | cancel (st : Sched) (env : UidPolicyEnv) (c : ClientId) (sid : SessionId) :
      SchedStep st (cancel env st c sid).2.1
  | onStarted (st : Sched) (c : ClientId) (sid : SessionId) :
      SchedStep st (onStarted st c sid).1
  | onPaused (st : Sched) (c : ClientId) (sid : SessionId) :
      SchedStep st (onPaused st c sid).1
  | onResumed (st : Sched) (c : ClientId) (sid : SessionId) :
      SchedStep st (onResumed st c sid).1
  | onFinish (st : Sched) (env : UidPolicyEnv) (c : ClientId) (sid : SessionId) :
      SchedStep st (onFinish env st c sid).1
  | onError (st : Sched) (env : UidPolicyEnv) (c : ClientId) (sid : SessionId) (err : Int) :
      SchedStep st (onError env st c sid err).1
  | onProgressUpdate (st : Sched) (c : ClientId) (sid : SessionId) (progress : Int) :
      SchedStep st (onProgressUpdate st c sid progress).1
  | onResourceLost (st : Sched) : SchedStep st (onResourceLost st).1
  | onTopUidsChanged (st : Sched) (uids : Finset Uid) :
      SchedStep st (onTopUidsChanged st uids).1
  | onResourceAvailable (st : Sched) : SchedStep st (onResourceAvailable st).1

/-- States reachable from the freshly constructed controller by any
sequence of public operations. -/
inductive Reachable : Sched → Prop
  | init : Reachable initialController
  | step {st st' : Sched} : Reachable st → SchedStep st st' → Reachable st'

/-- Structural well-formedness of the controller state (the validateState_l
conditions together with the queue-bookkeeping the controller relies on):
nodup keys everywhere, mUidSortedList and the mSessionQueues keys agree,
OFFLINE_UID sits at the back of mUidSortedList, every session sits in its
uid's queue, every queued key belongs to a registered session of that uid,
and real-time queues are never empty. -/
def StructWF (st : Sched) : Prop :=
  (st.mSessionMap.map Prod.fst).Nodup ∧
  (st.mSessionQueues.map Prod.fst).Nodup ∧
  st.mUidSortedList.Nodup ∧
  (∀ u ∈ st.mUidSortedList, (alookup st.mSessionQueues u).isSome = true) ∧
  (∀ q ∈ st.mSessionQueues, q.1 ∈ st.mUidSortedList) ∧
  st.mUidSortedList.getLast? = some OFFLINE_UID ∧
  (∀ e ∈ st.mSessionMap, e.1 ∈ queueOf st e.2.uid) ∧
  (∀ q ∈ st.mSessionQueues, ∀ k ∈ q.2,
      (alookup st.mSessionMap k).map Session.uid = some q.1) ∧
  (∀ q ∈ st.mSessionQueues, q.2.Nodup) ∧
  (∀ q ∈ st.mSessionQueues, q.1 ≠ OFFLINE_UID → q.2 ≠ [])

/-- Every RUNNING session is the current session. -/
def RunningIsCur (st : Sched) : Prop :=
  ∀ k s, alookup st.mSessionMap k = some s → s.state = SessionState.RUNNING →
    st.mCurrentSession = some k

/-- The controller invariant carried through the reachability induction. -/
def Inv (st : Sched) : Prop := StructWF st ∧ RunningIsCur st

/-- A UidPolicy environment that reports every uid as on top and an empty
top-uid set. -/
def envTop : UidPolicyEnv := { isUidOnTop := fun _ => true, topUids := {} }

/-- A real-time request. -/
def reqRT : TranscodingRequest := { priority := TranscodingSessionPriority.kNormal }

/-- Concrete scenario: one real-time session (1,1) submitted from uid 100
and running. -/
def stA : Sched := (submit envTop initialController 1 1 100 reqRT true).2.1

/-- Concrete scenario: a second real-time session (2,2) of uid 100 queued
behind the running (1,1); (2,2) is registered and still NOT_STARTED. -/
def stAB : Sched := (submit envTop stA 2 2 100 reqRT true).2.1

/-- The session record of (1,1) in stA: started, hence RUNNING. -/
def sessA : Session :=
  { key := (1, 1), uid := 100, state := SessionState.RUNNING
    lastProgress := 0, request := reqRT, cbAlive := true }

/-- Concrete scenario: the fresh controller after a resource-lost event. -/
def stLost : Sched := (onResourceLost initialController).1

/-- An offline (kUnspecified priority) request. -/
def reqOff : TranscodingRequest := { priority := TranscodingSessionPriority.kUnspecified }

/-- Concrete scenario: stAB plus an OFFLINE session (1,5) of client 1, so
client 1 owns the real-time session (1,1) and the offline session (1,5)
while client 2 owns the real-time session (2,2). -/
def stMix : Sched := (submit envTop stAB 1 5 100 reqOff true).2.1

end TSC

namespace VTT

/-- media_status_t values used by the pipeline (NdkMediaError.h). -/
def AMEDIA_OK : Int := 0
/-- AMEDIA_ERROR_BASE and AMEDIA_ERROR_UNKNOWN. -/
def AMEDIA_ERROR_UNKNOWN : Int := -10000
/-- AMEDIA_ERROR_INVALID_PARAMETER. -/
def AMEDIA_ERROR_INVALID_PARAMETER : Int := -10004
/-- AMEDIA_ERROR_END_OF_STREAM. -/
def AMEDIA_ERROR_END_OF_STREAM : Int := -10006
/-- AMEDIACODEC_BUFFER_FLAG_END_OF_STREAM bit. -/
def FLAG_END_OF_STREAM : Nat := 4
/-- AMEDIACODEC_INFO_OUTPUT_FORMAT_CHANGED sentinel buffer index. -/
def INFO_OUTPUT_FORMAT_CHANGED : Int := -2

/-- A typed AMediaFormat entry. -/
inductive FVal
  | i32 (v : Int)
  | i64 (v : Int)
  deriving DecidableEq, Repr

/-- An AMediaFormat: a finite association of string keys to typed values,
modelled as a key-indexed partial assignment. -/
def MediaFormat : Type := String → Option FVal

/-- AMediaFormat_getInt32: succeeds only when the key holds an int32. -/
def getInt32 (f : MediaFormat) (k : String) : Option Int :=
  match f k with
  | some (FVal.i32 v) => some v
  | _ => none

/-- AMediaFormat_getInt64. -/
def getInt64 (f : MediaFormat) (k : String) : Option Int :=
  match f k with
  | some (FVal.i64 v) => some v
  | _ => none

/-- AMediaFormat_setInt32. -/
def setInt32 (f : MediaFormat) (k : String) (v : Int) : MediaFormat :=
  Function.update f k (some (FVal.i32 v))

/-- AMediaFormat_setInt64. -/
def setInt64 (f : MediaFormat) (k : String) (v : Int) : MediaFormat :=
  Function.update f k (some (FVal.i64 v))

/-- AMEDIAFORMAT_KEY_SAR_WIDTH. -/
def KEY_SAR_WIDTH : String := "sar-width"
/-- AMEDIAFORMAT_KEY_SAR_HEIGHT. -/
def KEY_SAR_HEIGHT : String := "sar-height"
/-- AMEDIAFORMAT_KEY_DISPLAY_WIDTH. -/
def KEY_DISPLAY_WIDTH : String := "display-width"
/-- AMEDIAFORMAT_KEY_DISPLAY_HEIGHT. -/
def KEY_DISPLAY_HEIGHT : String := "display-height"
/-- AMEDIAFORMAT_KEY_ROTATION. -/
def KEY_ROTATION : String := "rotation-degrees"
/-- AMEDIAFORMAT_KEY_DURATION. -/
def KEY_DURATION : String := "durationUs"

/-- AMediaCodecBufferInfo: offset, size, presentationTimeUs, flags. -/
structure BufferInfo where
  offset : Int
  size : Int
  presentationTimeUs : Int
  flags : Nat
  deriving DecidableEq, Repr

/-- MediaSampleInfo as filled by the sample reader. -/
structure MediaSampleInfo where
  size : Nat
  presentationTimeUs : Int
  flags : Nat
  deriving DecidableEq, Repr

/-- Responses of the reader and decoder during one enqueueInputSample call:
getSampleInfoForTrack status and info, whether getInputBuffer returned null
and its capacity, and the readSampleDataForTrack / queueInputBuffer
statuses. -/
structure ReaderEnv where
  sampleStatus : Int
  sampleInfo : MediaSampleInfo
  bufferNull : Bool
  bufferSize : Nat
  readStatus : Int
  queueStatus : Int
  deriving DecidableEq, Repr

/-- Calls the pipeline makes on its collaborators while the run loop
executes: codec buffer operations and SampleSink deliveries. -/
inductive VEffect
  | queueInput (index : Int) (size : Nat) (presentationTimeUs : Int) (flags : Nat)
  | releaseDecoderOutput (index : Int) (render : Bool)
  | signalEndOfInput
  | sampleToSink (bufferId : Int) (offset : Int) (size : Int) (flags : Nat)
      (presentationTimeUs : Int)
  | formatAvailable
  deriving DecidableEq, Repr

/-- VideoTrackTranscoder state visible to the run loop: the stop flag, the
two end-of-stream flags, the latched status, the source track format, the
published actual output format, and the reused mSampleInfo member. -/
structure VTState where
  mStopRequested : Bool
  mEosFromSource : Bool
  mEosFromEncoder : Bool
  mStatus : Int
  mSourceFormat : MediaFormat
  mActualOutputFormat : Option MediaFormat
  mSampleInfo : MediaSampleInfo

/-- A unit of work on the codec message queue, reified with the
collaborator responses its execution will observe. -/
inductive VMsg
  | startDecoder (res : Int)
  | startEncoder (res : Int)
  | inputAvailable (index : Int) (env : ReaderEnv)
  | decoderOutput (index : Int) (info : BufferInfo) (signalRes : Int)
  | encoderOutput (index : Int) (info : BufferInfo)
  | formatChanged (fmt : MediaFormat)
  | codecError (err : Int)
  | stopMsg

/-- VideoTrackTranscoder::BlockingQueue. -/
structure BlockingQueue (α : Type) where
  mQueue : List α
  mAborted : Bool

/-- BlockingQueue::push: no-op once aborted; prepend when front is set,
append otherwise. -/
def BlockingQueue.push {α : Type} (q : BlockingQueue α) (value : α)
    (front : Bool := false) : BlockingQueue α :=
  if q.mAborted then q
  else if front then { q with mQueue := value :: q.mQueue }
  else { q with mQueue := q.mQueue ++ [value] }

/-- BlockingQueue::abort: drop pending items and refuse future pushes. -/
def BlockingQueue.abortQueue {α : Type} (q : BlockingQueue α) : BlockingQueue α :=
  { q with mQueue := [], mAborted := true }

/-- AsyncCodecCallbackDispatch::onAsyncError: push a message to the front
of the queue that records the error and requests a stop. -/
def onAsyncError (q : BlockingQueue VMsg) (err : Int) : BlockingQueue VMsg :=
  q.push (VMsg.codecError err) true

/-- VideoTrackTranscoder::abortTranscodeLoop: push the stop request to the
front of the codec event queue. -/
def abortTranscodeLoop (q : BlockingQueue VMsg) : BlockingQueue VMsg :=
  q.push VMsg.stopMsg true

/-- VideoTrackTranscoder::enqueueInputSample. -/
def enqueueInputSample (st : VTState) (bufferIndex : Int) (env : ReaderEnv) :
    VTState × List VEffect :=
  if st.mEosFromSource then (st, [])
  else
    let st := { st with mSampleInfo := env.sampleInfo }
    if env.sampleStatus ≠ AMEDIA_OK ∧ env.sampleStatus ≠ AMEDIA_ERROR_END_OF_STREAM then
      ({ st with mStatus := env.sampleStatus }, [])
    else
      let endOfStream := env.sampleStatus = AMEDIA_ERROR_END_OF_STREAM
      if ¬endOfStream then
        if env.bufferNull then ({ st with mStatus := AMEDIA_ERROR_UNKNOWN }, [])
        else if env.bufferSize < st.mSampleInfo.size then
          ({ st with mStatus := AMEDIA_ERROR_UNKNOWN }, [])
        else if env.readStatus ≠ AMEDIA_OK then ({ st with mStatus := env.readStatus }, [])
        else
          let eff := [VEffect.queueInput bufferIndex st.mSampleInfo.size
            st.mSampleInfo.presentationTimeUs st.mSampleInfo.flags]
          (if env.queueStatus ≠ AMEDIA_OK then { st with mStatus := env.queueStatus } else st,
           eff)
      else
        let st := { st with mEosFromSource := true }
        let eff := [VEffect.queueInput bufferIndex st.mSampleInfo.size
          st.mSampleInfo.presentationTimeUs st.mSampleInfo.flags]
        (if env.queueStatus ≠ AMEDIA_OK then { st with mStatus := env.queueStatus } else st,
         eff)

/-- VideoTrackTranscoder::transferBuffer: release the decoder output buffer
(rendering frames that carry payload), and on EOS signal end of input on
the encoder. -/
def transferBuffer (st : VTState) (bufferIndex : Int) (bufferInfo : BufferInfo)
    (signalRes : Int) : VTState × List VEffect :=
  let e1 := if bufferIndex ≥ 0 then
      [VEffect.releaseDecoderOutput bufferIndex (bufferInfo.size > 0)]
    else []
  if Nat.land bufferInfo.flags FLAG_END_OF_STREAM ≠ 0 then
    (if signalRes ≠ AMEDIA_OK then { st with mStatus := signalRes } else st,
     e1 ++ [VEffect.signalEndOfInput])
  else (st, e1)

/-- VideoTrackTranscoder::dequeueOutputSample: wrap the encoder output
buffer in a MediaSample and deliver it to the sink; record encoder EOS. -/
def dequeueOutputSample (st : VTState) (bufferIndex : Int) (bufferInfo : BufferInfo) :
    VTState × List VEffect :=
  let e1 := if bufferIndex ≥ 0 then
      [VEffect.sampleToSink bufferIndex bufferInfo.offset bufferInfo.size
        bufferInfo.flags bufferInfo.presentationTimeUs]
    else []
  if Nat.land bufferInfo.flags FLAG_END_OF_STREAM ≠ 0 then
    ({ st with mEosFromEncoder := true }, e1)
  else (st, e1)

/-- The width/height transfer pattern of updateTrackFormat: when the source
format holds both keys as positive int32 values, write them into the
destination (used once for SAR and once for the display size). -/
def overlayPair (src fmt : MediaFormat) (kw kh : String) : MediaFormat :=
  match getInt32 src kw with
  | some w =>
    if w > 0 then
      match getInt32 src kh with
      | some h => if h > 0 then setInt32 (setInt32 fmt kw w) kh h else fmt
      | none => fmt
    else fmt
  | none => fmt

/-- The rotation transfer of updateTrackFormat: copy a nonzero rotation. -/
def overlayRotation (src fmt : MediaFormat) : MediaFormat :=
  match getInt32 src KEY_ROTATION with
  | some rotation => if rotation ≠ 0 then setInt32 fmt KEY_ROTATION rotation else fmt
  | none => fmt

/-- The duration transfer of updateTrackFormat: copy a positive duration. -/
def overlayDuration (src fmt : MediaFormat) : MediaFormat :=
  match getInt64 src KEY_DURATION with
  | some durationUs => if durationUs > 0 then setInt64 fmt KEY_DURATION durationUs else fmt
  | none => fmt

/-- VideoTrackTranscoder::updateTrackFormat: the first format change copies
the encoder output format, overlays SAR, display size, rotation and
duration from the source format when present and valid, publishes the
composite and notifies the sink; later calls are ignored. (The allocation
failure of AMediaFormat_new / AMediaFormat_copy is not modelled.) -/
def updateTrackFormat (st : VTState) (outputFormat : MediaFormat) :
    VTState × List VEffect :=
  if st.mActualOutputFormat.isSome then (st, [])
  else
    let formatCopy := outputFormat
    let c1 := overlayPair st.mSourceFormat formatCopy KEY_SAR_WIDTH KEY_SAR_HEIGHT
    let c2 := overlayPair st.mSourceFormat c1 KEY_DISPLAY_WIDTH KEY_DISPLAY_HEIGHT
    let c3 := overlayRotation st.mSourceFormat c2
    let c4 := overlayDuration st.mSourceFormat c3
    ({ st with mActualOutputFormat := some c4 }, [VEffect.formatAvailable])

/-- Execute one popped message. -/
def vstep (st : VTState) : VMsg → VTState × List VEffect
  | VMsg.startDecoder res =>
    (if res ≠ AMEDIA_OK then { st with mStatus := res } else st, [])
  | VMsg.startEncoder res =>
    (if res ≠ AMEDIA_OK then { st with mStatus := res } else st, [])
  | VMsg.inputAvailable index env => enqueueInputSample st index env
  | VMsg.decoderOutput index info signalRes => transferBuffer st index info signalRes
  | VMsg.encoderOutput index info => dequeueOutputSample st index info
  | VMsg.formatChanged fmt => updateTrackFormat st fmt
  | VMsg.codecError err => ({ st with mStatus := err, mStopRequested := true }, [])
  | VMsg.stopMsg => ({ st with mStopRequested := true }, [])

/-- The run loop's continuation condition: process codec events until EOS
is reached, transcoding is stopped or an error occurs. -/
def loopDone (st : VTState) : Bool :=
  st.mStopRequested || st.mEosFromEncoder || !(st.mStatus == AMEDIA_OK)

/-- The message-processing loop of runTranscodeLoop, over the sequence of
messages the queue will deliver. -/
def runLoop (st : VTState) : List VMsg → VTState × List VEffect
  | [] => (st, [])
  | m :: rest =>
    if loopDone st then (st, [])
    else
      let r := vstep st m
      let r2 := runLoop r.1 rest
      (r2.1, r.2 ++ r2.2)

/-- VideoTrackTranscoder::runTranscodeLoop: run the loop, then return a
generic error if transcoding was stopped before it finished, else the
recorded status. Result: (return value, final state, effect trace). -/
def runTranscodeLoop (st : VTState) (msgs : List VMsg) : Int × VTState × List VEffect :=
  let r := runLoop st msgs
  let st1 := r.1
  let ret :=
    if st1.mStopRequested && !st1.mEosFromEncoder && (st1.mStatus == AMEDIA_OK) then
      AMEDIA_ERROR_UNKNOWN
    else st1.mStatus
  (ret, st1, r.2)

/-- A format with no entries. -/
def emptyFmt : MediaFormat := fun _ => none

/-- The pipeline state at the start of runTranscodeLoop: nothing requested,
no EOS seen, status AMEDIA_OK, no published format. -/
def vtInit (src : MediaFormat) : VTState :=
  { mStopRequested := false, mEosFromSource := false, mEosFromEncoder := false
    mStatus := AMEDIA_OK, mSourceFormat := src, mActualOutputFormat := none
    mSampleInfo := { size := 0, presentationTimeUs := 0, flags := 0 } }

/-- A concrete source format: SAR 4:3, rotation 90, duration 1000. -/
def srcFmt : MediaFormat :=
  setInt64 (setInt32 (setInt32 (setInt32 emptyFmt KEY_SAR_WIDTH 4) KEY_SAR_HEIGHT 3)
    KEY_ROTATION 90) KEY_DURATION 1000

/-- A concrete encoder output format: width 1280, rotation 0. -/
def encFmt : MediaFormat := setInt32 (setInt32 emptyFmt "width" 1280) KEY_ROTATION 0

/-- A concrete encoder output buffer info carrying payload. -/
def datInfo : BufferInfo := { offset := 0, size := 10, presentationTimeUs := 5, flags := 0 }

/-- A concrete queue with one pending buffer event. -/
def c5Queue : BlockingQueue VMsg :=
  { mQueue := [VMsg.encoderOutput 3 datInfo], mAborted := false }

/-- A concrete message script in which the pipeline is stopped before the
encoder reaches end of stream. -/
def c3Msgs : List VMsg :=
  [VMsg.startDecoder 0, VMsg.startEncoder 0, VMsg.stopMsg, VMsg.encoderOutput 3 datInfo]

end VTT

/-! ## Theorems about the video pipeline -/

namespace VTT

theorem runLoop_of_done {st : VTState} (h : loopDone st = true) (msgs : List VMsg) :
    runLoop st msgs = (st, []) := by
  cases msgs with
  | nil => rfl
  | cons m rest => simp [runLoop, h]

theorem loopDone_false_iff {st : VTState} :
    loopDone st = false ↔
      st.mStopRequested = false ∧ st.mEosFromEncoder = false ∧ st.mStatus = AMEDIA_OK := by
  simp [loopDone, and_assoc]

/-- C3: the run loop's return value: a generic error when stop was
requested before encoder EOS with no other recorded error, otherwise the
recorded status, which is AMEDIA_OK on clean completion. -/
theorem runTranscodeLoop_returnSpec (st : VTState) (msgs : List VMsg) (ret : Int)
    (fin : VTState) (effs : List VEffect)
    (h : runTranscodeLoop st msgs = (ret, fin, effs)) :
    (fin.mStopRequested = true ∧ fin.mEosFromEncoder = false ∧ fin.mStatus = AMEDIA_OK →
      ret = AMEDIA_ERROR_UNKNOWN) ∧
    (¬(fin.mStopRequested = true ∧ fin.mEosFromEncoder = false ∧ fin.mStatus = AMEDIA_OK) →
      ret = fin.mStatus) ∧
    (fin.mEosFromEncoder = true ∧ fin.mStatus = AMEDIA_OK → ret = AMEDIA_OK) := by
  have hret := congrArg Prod.fst h
  have hfin := congrArg (fun p => p.2.1) h
  simp only [runTranscodeLoop] at hret hfin
  subst hfin
  rw [← hret]
  refine ⟨?_, ?_, ?_⟩
  · rintro ⟨h1, h2, h3⟩
    simp [h1, h2, h3]
  · intro hn
    rcases hb1 : (runLoop st msgs).1.mStopRequested
    · simp [hb1]
    · rcases hb2 : (runLoop st msgs).1.mEosFromEncoder
      · by_cases hs : (runLoop st msgs).1.mStatus = AMEDIA_OK
        · exact absurd ⟨hb1, hb2, hs⟩ hn
        · simp [hb1, hb2, hs]
      · simp [hb1, hb2]
  · rintro ⟨h2, h3⟩
    simp [h2, h3]

/-- C3 witness: stopping before encoder EOS yields the generic error. -/
theorem runTranscodeLoop_returnSpec_witness :
    (runTranscodeLoop (vtInit emptyFmt) c3Msgs).1 = AMEDIA_ERROR_UNKNOWN :=
  (runTranscodeLoop_returnSpec (vtInit emptyFmt) c3Msgs _ _ _ rfl).1 (by decide)

/-- C5: a codec error event goes to the front of the message queue; the
run loop executes it before the backlog, latches the error as the status
that is returned, and delivers no further sample to the sink. -/
theorem onAsyncErrorSpec (q : BlockingQueue VMsg) (st : VTState) (err : Int)
    (rest : List VMsg) (hq : q.mAborted = false) (hrun : loopDone st = false)
    (herr : err ≠ AMEDIA_OK) :
    (onAsyncError q err).mQueue = VMsg.codecError err :: q.mQueue ∧
    (runTranscodeLoop st (VMsg.codecError err :: rest)).2.1.mStatus = err ∧
    (runTranscodeLoop st (VMsg.codecError err :: rest)).1 = err ∧
    (runTranscodeLoop st (VMsg.codecError err :: rest)).2.2 = [] := by
  obtain ⟨h1, h2, h3⟩ := loopDone_false_iff.mp hrun
  have hdone : loopDone { st with mStatus := err, mStopRequested := true } = true := by
    simp [loopDone]
  have hloop : runLoop st (VMsg.codecError err :: rest) =
      ({ st with mStatus := err, mStopRequested := true }, []) := by
    rw [runLoop]
    simp [hrun, vstep, runLoop_of_done hdone]
  refine ⟨?_, ?_, ?_, ?_⟩
  · simp [onAsyncError, BlockingQueue.push, hq]
  · simp [runTranscodeLoop, hloop]
  · simp [runTranscodeLoop, hloop, herr]
  · simp [runTranscodeLoop, hloop]

/-- C5 witness: a concrete error cuts ahead of a pending buffer event and
is returned; no sample reaches the sink. -/
theorem onAsyncErrorSpec_witness :
    (runTranscodeLoop (vtInit emptyFmt)
        (VMsg.codecError (-10001) :: [VMsg.encoderOutput 3 datInfo])).1 = -10001 ∧
    (runTranscodeLoop (vtInit emptyFmt)
        (VMsg.codecError (-10001) :: [VMsg.encoderOutput 3 datInfo])).2.2 = [] := by
  have h := onAsyncErrorSpec c5Queue (vtInit emptyFmt) (-10001)
    [VMsg.encoderOutput 3 datInfo] rfl rfl (by decide)
  exact ⟨h.2.2.1, h.2.2.2⟩

theorem updateTrackFormat_of_isSome {st : VTState}
    (h : st.mActualOutputFormat.isSome = true) (f : MediaFormat) :
    updateTrackFormat st f = (st, []) := by
  unfold updateTrackFormat
  simp [h]

theorem updateTrackFormat_isSome (st : VTState) (f : MediaFormat) :
    (updateTrackFormat st f).1.mActualOutputFormat.isSome = true := by
  unfold updateTrackFormat
  cases h : st.mActualOutputFormat <;> simp [h]

/-- C8: only the first format-changed event publishes the actual output
format and notifies the sink; a second one is a no-op on state and emits
nothing. -/
theorem updateTrackFormat_firstOnly (st : VTState) (f1 f2 : MediaFormat) :
    updateTrackFormat (updateTrackFormat st f1).1 f2 = ((updateTrackFormat st f1).1, []) ∧
    (st.mActualOutputFormat = none →
      (updateTrackFormat st f1).2 = [VEffect.formatAvailable]) := by
  constructor
  · exact updateTrackFormat_of_isSome (updateTrackFormat_isSome st f1) f2
  · intro h
    unfold updateTrackFormat
    simp [h]

/-- C8 witness: the first format change notifies the sink once. -/
theorem updateTrackFormat_firstOnly_witness :
    (updateTrackFormat (vtInit srcFmt) encFmt).2 = [VEffect.formatAvailable] :=
  (updateTrackFormat_firstOnly (vtInit srcFmt) encFmt emptyFmt).2 rfl

theorem overlayPair_at_ne (src fmt : MediaFormat) (kw kh k : String)
    (hk1 : k ≠ kw) (hk2 : k ≠ kh) : overlayPair src fmt kw kh k = fmt k := by
  unfold overlayPair
  cases hw : getInt32 src kw with
  | none => rfl
  | some w =>
    by_cases hpw : w > 0
    · cases hgh : getInt32 src kh with
      | none => simp [hpw]
      | some hh =>
        by_cases hph : hh > 0
        · simp [hpw, hph, setInt32, Function.update_apply, hk1, hk2]
        · simp [hpw, hph]
    · simp [hpw]

theorem overlayPair_at_keys (src fmt : MediaFormat) (kw kh : String) (hne : kw ≠ kh)
    (w hh : Int) (hw : getInt32 src kw = some w) (hpw : 0 < w)
    (hgh : getInt32 src kh = some hh) (hph : 0 < hh) :
    overlayPair src fmt kw kh kw = some (FVal.i32 w) ∧
    overlayPair src fmt kw kh kh = some (FVal.i32 hh) := by
  unfold overlayPair
  rw [hw, hgh]
  simp [hpw, hph, setInt32, Function.update_apply, hne, Ne.symm hne]

theorem overlayPair_none (src fmt : MediaFormat) (kw kh : String)
    (hno : ¬∃ w hh, getInt32 src kw = some w ∧ 0 < w ∧
      getInt32 src kh = some hh ∧ 0 < hh) :
    overlayPair src fmt kw kh = fmt := by
  unfold overlayPair
  cases hw : getInt32 src kw with
  | none => rfl
  | some w =>
    by_cases hpw : w > 0
    · cases hgh : getInt32 src kh with
      | none => simp [hpw]
      | some h2 =>
        by_cases hph : h2 > 0
        · exact absurd ⟨w, h2, hw, hpw, hgh, hph⟩ hno
        · simp [hpw, hph]
    · simp [hpw]

theorem overlayRotation_at_ne (src fmt : MediaFormat) (k : String)
    (hk : k ≠ KEY_ROTATION) : overlayRotation src fmt k = fmt k := by
  unfold overlayRotation
  cases hr : getInt32 src KEY_ROTATION with
  | none => rfl
  | some r =>
    by_cases hnz : r ≠ 0
    · simp [hnz, setInt32, Function.update_apply, hk]
    · simp [hnz]

theorem overlayRotation_at_key (src fmt : MediaFormat) (r : Int)
    (hr : getInt32 src KEY_ROTATION = some r) (hnz : r ≠ 0) :
    overlayRotation src fmt KEY_ROTATION = some (FVal.i32 r) := by
  unfold overlayRotation
  rw [hr]
  simp [hnz, setInt32, Function.update_apply]

theorem overlayRotation_none (src fmt : MediaFormat)
    (hno : ¬∃ r, getInt32 src KEY_ROTATION = some r ∧ r ≠ 0) :
    overlayRotation src fmt = fmt := by
  unfold overlayRotation
  cases hr : getInt32 src KEY_ROTATION with
  | none => rfl
  | some r =>
    by_cases hnz : r ≠ 0
    · exact absurd ⟨r, hr, hnz⟩ hno
    · simp [hnz]

theorem overlayDuration_at_ne (src fmt : MediaFormat) (k : String)
    (hk : k ≠ KEY_DURATION) : overlayDuration src fmt k = fmt k := by
  unfold overlayDuration
  cases hd : getInt64 src KEY_DURATION with
  | none => rfl
  | some d =>
    by_cases hp : d > 0
    · simp [hp, setInt64, Function.update_apply, hk]
    · simp [hp]

theorem overlayDuration_at_key (src fmt : MediaFormat) (d : Int)
    (hd : getInt64 src KEY_DURATION = some d) (hp : 0 < d) :
    overlayDuration src fmt KEY_DURATION = some (FVal.i64 d) := by
  unfold overlayDuration
  rw [hd]
  simp [hp, setInt64, Function.update_apply]

theorem overlayDuration_none (src fmt : MediaFormat)
    (hno : ¬∃ d, getInt64 src KEY_DURATION = some d ∧ 0 < d) :
    overlayDuration src fmt = fmt := by
  unfold overlayDuration
  cases hd : getInt64 src KEY_DURATION with
  | none => rfl
  | some d =>
    by_cases hp : d > 0
    · exact absurd ⟨d, hd, hp⟩ hno
    · simp [hp]

/-- C9: the published actual output format is the encoder output format
overlaid with exactly the valid source keys: SAR width/height (both
positive), display width/height (both positive), nonzero rotation,
positive duration; every other key keeps the encoder format's value. -/
theorem updateTrackFormat_overlaySpec (st : VTState) (f : MediaFormat)
    (h0 : st.mActualOutputFormat = none) :
    ∃ g, (updateTrackFormat st f).1.mActualOutputFormat = some g ∧
      (∀ w hh, getInt32 st.mSourceFormat KEY_SAR_WIDTH = some w → 0 < w →
        getInt32 st.mSourceFormat KEY_SAR_HEIGHT = some hh → 0 < hh →
        g KEY_SAR_WIDTH = some (FVal.i32 w) ∧ g KEY_SAR_HEIGHT = some (FVal.i32 hh)) ∧
      ((¬∃ w hh, getInt32 st.mSourceFormat KEY_SAR_WIDTH = some w ∧ 0 < w ∧
          getInt32 st.mSourceFormat KEY_SAR_HEIGHT = some hh ∧ 0 < hh) →
        g KEY_SAR_WIDTH = f KEY_SAR_WIDTH ∧ g KEY_SAR_HEIGHT = f KEY_SAR_HEIGHT) ∧
      (∀ w hh, getInt32 st.mSourceFormat KEY_DISPLAY_WIDTH = some w → 0 < w →
        getInt32 st.mSourceFormat KEY_DISPLAY_HEIGHT = some hh → 0 < hh →
        g KEY_DISPLAY_WIDTH = some (FVal.i32 w) ∧
        g KEY_DISPLAY_HEIGHT = some (FVal.i32 hh)) ∧
      ((¬∃ w hh, getInt32 st.mSourceFormat KEY_DISPLAY_WIDTH = some w ∧ 0 < w ∧
          getInt32 st.mSourceFormat KEY_DISPLAY_HEIGHT = some hh ∧ 0 < hh) →
        g KEY_DISPLAY_WIDTH = f KEY_DISPLAY_WIDTH ∧
        g KEY_DISPLAY_HEIGHT = f KEY_DISPLAY_HEIGHT) ∧
      (∀ r, getInt32 st.mSourceFormat KEY_ROTATION = some r → r ≠ 0 →
        g KEY_ROTATION = some (FVal.i32 r)) ∧
      ((¬∃ r, getInt32 st.mSourceFormat KEY_ROTATION = some r ∧ r ≠ 0) →
        g KEY_ROTATION = f KEY_ROTATION) ∧
      (∀ d, getInt64 st.mSourceFormat KEY_DURATION = some d → 0 < d →
        g KEY_DURATION = some (FVal.i64 d)) ∧
      ((¬∃ d, getInt64 st.mSourceFormat KEY_DURATION = some d ∧ 0 < d) →
        g KEY_DURATION = f KEY_DURATION) ∧
      (∀ k, k ≠ KEY_SAR_WIDTH → k ≠ KEY_SAR_HEIGHT → k ≠ KEY_DISPLAY_WIDTH →
        k ≠ KEY_DISPLAY_HEIGHT → k ≠ KEY_ROTATION → k ≠ KEY_DURATION → g k = f k) := by
  have hbool : st.mActualOutputFormat.isSome = false := by simp [h0]
  have chain : ∀ (fmt : MediaFormat) (k : String), k ≠ KEY_DISPLAY_WIDTH →
      k ≠ KEY_DISPLAY_HEIGHT → k ≠ KEY_ROTATION → k ≠ KEY_DURATION →
      overlayDuration st.mSourceFormat (overlayRotation st.mSourceFormat
        (overlayPair st.mSourceFormat fmt KEY_DISPLAY_WIDTH KEY_DISPLAY_HEIGHT)) k
        = fmt k := by
    intro fmt k h3 h4 h5 h6
    rw [overlayDuration_at_ne _ _ _ h6, overlayRotation_at_ne _ _ _ h5]
    exact overlayPair_at_ne _ _ _ _ _ h3 h4
  have rotdur : ∀ (fmt : MediaFormat) (k : String), k ≠ KEY_ROTATION →
      k ≠ KEY_DURATION →
      overlayDuration st.mSourceFormat (overlayRotation st.mSourceFormat fmt) k = fmt k := by
    intro fmt k h5 h6
    rw [overlayDuration_at_ne _ _ _ h6]
    exact overlayRotation_at_ne _ _ _ h5
  refine ⟨overlayDuration st.mSourceFormat (overlayRotation st.mSourceFormat
    (overlayPair st.mSourceFormat
      (overlayPair st.mSourceFormat f KEY_SAR_WIDTH KEY_SAR_HEIGHT)
      KEY_DISPLAY_WIDTH KEY_DISPLAY_HEIGHT)), ?_, ?_, ?_, ?_, ?_, ?_, ?_, ?_, ?_, ?_⟩
  · unfold updateTrackFormat
    simp [hbool]
  · intro w hh hw hpw hgh hph
    have e1 := chain (overlayPair st.mSourceFormat f KEY_SAR_WIDTH KEY_SAR_HEIGHT)
      KEY_SAR_WIDTH (by decide) (by decide) (by decide) (by decide)
    have e2 := chain (overlayPair st.mSourceFormat f KEY_SAR_WIDTH KEY_SAR_HEIGHT)
      KEY_SAR_HEIGHT (by decide) (by decide) (by decide) (by decide)
    rw [e1, e2]
    exact overlayPair_at_keys _ f _ _ (by decide) w hh hw hpw hgh hph
  · intro hno
    have e1 := chain (overlayPair st.mSourceFormat f KEY_SAR_WIDTH KEY_SAR_HEIGHT)
      KEY_SAR_WIDTH (by decide) (by decide) (by decide) (by decide)
    have e2 := chain (overlayPair st.mSourceFormat f KEY_SAR_WIDTH KEY_SAR_HEIGHT)
      KEY_SAR_HEIGHT (by decide) (by decide) (by decide) (by decide)
    rw [e1, e2, overlayPair_none _ _ _ _ hno]
    exact ⟨rfl, rfl⟩
  · intro w hh hw hpw hgh hph
    have e1 := rotdur (overlayPair st.mSourceFormat
      (overlayPair st.mSourceFormat f KEY_SAR_WIDTH KEY_SAR_HEIGHT)
      KEY_DISPLAY_WIDTH KEY_DISPLAY_HEIGHT) KEY_DISPLAY_WIDTH (by decide) (by decide)
    have e2 := rotdur (overlayPair st.mSourceFormat
      (overlayPair st.mSourceFormat f KEY_SAR_WIDTH KEY_SAR_HEIGHT)
      KEY_DISPLAY_WIDTH KEY_DISPLAY_HEIGHT) KEY_DISPLAY_HEIGHT (by decide) (by decide)
    rw [e1, e2]
    exact overlayPair_at_keys _ _ _ _ (by decide) w hh hw hpw hgh hph
  · intro hno
    have e1 := rotdur (overlayPair st.mSourceFormat
      (overlayPair st.mSourceFormat f KEY_SAR_WIDTH KEY_SAR_HEIGHT)
      KEY_DISPLAY_WIDTH KEY_DISPLAY_HEIGHT) KEY_DISPLAY_WIDTH (by decide) (by decide)
    have e2 := rotdur (overlayPair st.mSourceFormat
      (overlayPair st.mSourceFormat f KEY_SAR_WIDTH KEY_SAR_HEIGHT)
      KEY_DISPLAY_WIDTH KEY_DISPLAY_HEIGHT) KEY_DISPLAY_HEIGHT (by decide) (by decide)
    rw [e1, e2, overlayPair_none _ _ _ _ hno]
    constructor
    · exact overlayPair_at_ne _ _ _ _ _ (by decide) (by decide)
    · exact overlayPair_at_ne _ _ _ _ _ (by decide) (by decide)
  · intro r hr hnz
    rw [overlayDuration_at_ne _ _ _ (by decide)]
    exact overlayRotation_at_key _ _ r hr hnz
  · intro hno
    rw [overlayDuration_at_ne _ _ _ (by decide), overlayRotation_none _ _ hno,
      overlayPair_at_ne _ _ _ _ _ (by decide) (by decide),
      overlayPair_at_ne _ _ _ _ _ (by decide) (by decide)]
  · intro d hd hp
    exact overlayDuration_at_key _ _ d hd hp
  · intro hno
    rw [overlayDuration_none _ _ hno, overlayRotation_at_ne _ _ _ (by decide),
      overlayPair_at_ne _ _ _ _ _ (by decide) (by decide),
      overlayPair_at_ne _ _ _ _ _ (by decide) (by decide)]
  · intro k k1 k2 k3 k4 k5 k6
    rw [chain _ k k3 k4 k5 k6]
    exact overlayPair_at_ne _ _ _ _ _ k1 k2

/-- C9 witness: a concrete source format with SAR 4:3, rotation 90 and
duration 1000 overlaid on a concrete encoder format. -/
theorem updateTrackFormat_overlaySpec_witness :
    ∃ g, (updateTrackFormat (vtInit srcFmt) encFmt).1.mActualOutputFormat = some g ∧
      g KEY_SAR_WIDTH = some (FVal.i32 4) ∧ g KEY_ROTATION = some (FVal.i32 90) ∧
      g KEY_DURATION = some (FVal.i64 1000) ∧ g "width" = encFmt "width" := by
  obtain ⟨g, hg, hsar, _, _, _, hrot, _, hdur, _, hother⟩ :=
    updateTrackFormat_overlaySpec (vtInit srcFmt) encFmt rfl
  refine ⟨g, hg, (hsar 4 3 rfl (by decide) rfl (by decide)).1,
    hrot 90 rfl (by decide), hdur 1000 rfl (by decide),
    hother "width" (by decide) (by decide) (by decide) (by decide) (by decide) (by decide)⟩

end VTT

/-! ## Theorems about the session controller -/

namespace TSC

theorem alookup_aupdate_self {α β : Type} [DecidableEq α] (l : List (α × β)) (a : α) (b : β) :
    alookup (aupdate l a b) a = some b := by
  induction l with
  | nil => simp [aupdate, alookup]
  | cons e t ih =>
    obtain ⟨k, v⟩ := e
    by_cases h : k = a
    · simp [aupdate, h, alookup]
    · simp [aupdate, h, alookup, Ne.symm h, ih]

theorem alookup_aupdate_ne {α β : Type} [DecidableEq α] (l : List (α × β)) (a x : α) (b : β)
    (h : x ≠ a) : alookup (aupdate l a b) x = alookup l x := by
  induction l with
  | nil => simp [aupdate, alookup, h]
  | cons e t ih =>
    obtain ⟨k, v⟩ := e
    by_cases hk : k = a
    · subst hk
      simp [aupdate, alookup, h]
    · by_cases hx : x = k
      · simp [aupdate, hk, alookup, hx]
      · simp [aupdate, hk, alookup, hx, ih]

theorem alookup_aerase_self {α β : Type} [DecidableEq α] (l : List (α × β)) (a : α) :
    alookup (aerase l a) a = none := by
  induction l with
  | nil => rfl
  | cons e t ih =>
    obtain ⟨k, v⟩ := e
    by_cases hk : k = a
    · simpa [aerase, hk] using ih
    · simpa [aerase, hk, alookup, Ne.symm hk] using ih

theorem alookup_aerase_ne {α β : Type} [DecidableEq α] (l : List (α × β)) (a x : α)
    (h : x ≠ a) : alookup (aerase l a) x = alookup l x := by
  induction l with
  | nil => rfl
  | cons e t ih =>
    obtain ⟨k, v⟩ := e
    by_cases hk : k = a
    · subst hk
      simpa [aerase, alookup, h] using ih
    · by_cases hx : x = k
      · simp [aerase, hk, alookup, hx]
      · simpa [aerase, hk, alookup, hx] using ih

theorem alookup_isSome_iff {α β : Type} [DecidableEq α] (l : List (α × β)) (a : α) :
    (alookup l a).isSome = true ↔ a ∈ l.map Prod.fst := by
  induction l with
  | nil => simp [alookup]
  | cons e t ih =>
    obtain ⟨k, v⟩ := e
    by_cases h : a = k
    · simp [alookup, h]
    · simp [alookup, h, ih]

theorem alookup_eq_none_iff {α β : Type} [DecidableEq α] (l : List (α × β)) (a : α) :
    alookup l a = none ↔ a ∉ l.map Prod.fst := by
  rw [← alookup_isSome_iff]
  cases alookup l a <;> simp

theorem alookup_mem {α β : Type} [DecidableEq α] {l : List (α × β)} {a : α} {b : β}
    (h : alookup l a = some b) : (a, b) ∈ l := by
  induction l with
  | nil => simp [alookup] at h
  | cons e t ih =>
    obtain ⟨k, v⟩ := e
    by_cases hk : a = k
    · subst hk
      simp [alookup] at h
      simp [h]
    · simp [alookup, hk] at h
      exact List.mem_cons_of_mem _ (ih h)

theorem mem_alookup {α β : Type} [DecidableEq α] {l : List (α × β)} {a : α} {b : β}
    (hnd : (l.map Prod.fst).Nodup) (h : (a, b) ∈ l) : alookup l a = some b := by
  induction l with
  | nil => simp at h
  | cons e t ih =>
    obtain ⟨k, v⟩ := e
    rw [List.map_cons, List.nodup_cons] at hnd
    rcases List.mem_cons.mp h with he | ht
    · cases he
      simp [alookup]
    · have hak : a ≠ k := by
        rintro rfl
        have hmem : (a, b).1 ∈ List.map Prod.fst t := List.mem_map_of_mem Prod.fst ht
        exact hnd.1 hmem
      simpa [alookup, hak] using ih hnd.2 ht

theorem keys_aupdate {α β : Type} [DecidableEq α] (l : List (α × β)) (a : α) (b : β) (x : α) :
    x ∈ (aupdate l a b).map Prod.fst ↔ x = a ∨ x ∈ l.map Prod.fst := by
  induction l with
  | nil => simp [aupdate]
  | cons e t ih =>
    obtain ⟨k, v⟩ := e
    by_cases hk : k = a
    · subst hk
      simp [aupdate]
    · simp [aupdate, hk, ih]
      tauto

theorem keys_aupdate_nodup {α β : Type} [DecidableEq α] {l : List (α × β)} (a : α) (b : β)
    (hnd : (l.map Prod.fst).Nodup) : ((aupdate l a b).map Prod.fst).Nodup := by
  induction l with
  | nil => simp [aupdate]
  | cons e t ih =>
    obtain ⟨k, v⟩ := e
    rw [List.map_cons, List.nodup_cons] at hnd
    by_cases hk : k = a
    · subst hk
      have he : aupdate ((k, v) :: t) k b = (k, b) :: t := by simp [aupdate]
      rw [he, List.map_cons, List.nodup_cons]
      exact ⟨hnd.1, hnd.2⟩
    · have he : aupdate ((k, v) :: t) a b = (k, v) :: aupdate t a b := by
        simp [aupdate, hk]
      rw [he, List.map_cons, List.nodup_cons]
      refine ⟨fun hxk => ?_, ih hnd.2⟩
      rcases (keys_aupdate t a b (k, v).1).mp hxk with h1 | h2
      · exact hk h1
      · exact hnd.1 h2

theorem keys_aerase_nodup {α β : Type} [DecidableEq α] {l : List (α × β)} (a : α)
    (hnd : (l.map Prod.fst).Nodup) : ((aerase l a).map Prod.fst).Nodup :=
  hnd.sublist ((List.filter_sublist l).map Prod.fst)

theorem mem_aerase {α β : Type} [DecidableEq α] (l : List (α × β)) (a : α) (e : α × β) :
    e ∈ aerase l a ↔ e ∈ l ∧ e.1 ≠ a := by
  simp [aerase, List.mem_filter]

theorem aupdate_ne_nil {α β : Type} [DecidableEq α] (l : List (α × β)) (a : α) (b : β) :
    aupdate l a b ≠ [] := by
  cases l with
  | nil => simp [aupdate]
  | cons e t =>
    obtain ⟨k, v⟩ := e
    by_cases hk : k = a <;> simp [aupdate, hk]

theorem getLast?_cons_ne_nil {α : Type} (x : α) {l : List α} (h : l ≠ []) :
    (x :: l).getLast? = l.getLast? := by
  cases l with
  | nil => exact absurd rfl h
  | cons y t => exact List.getLast?_cons_cons

theorem ne_nil_of_getLast? {α : Type} {l : List α} {a : α} (h : l.getLast? = some a) :
    l ≠ [] := by
  cases l with
  | nil => simp at h
  | cons y t => simp

theorem insertBeforeOffline_perm (l : List Uid) (u : Uid) :
    List.Perm (insertBeforeOffline l u) (u :: l) := by
  induction l with
  | nil => simp [insertBeforeOffline]
  | cons x t ih =>
    by_cases hx : x = OFFLINE_UID
    · simp [insertBeforeOffline, hx]
    · rw [insertBeforeOffline, if_neg hx]
      exact (ih.cons x).trans (List.Perm.swap u x t)

theorem insertBeforeOffline_getLast {l : List Uid} (u : Uid)
    (h : l.getLast? = some OFFLINE_UID) :
    (insertBeforeOffline l u).getLast? = some OFFLINE_UID := by
  induction l with
  | nil => simp at h
  | cons x t ih =>
    by_cases hx : x = OFFLINE_UID
    · rw [insertBeforeOffline, if_pos hx, List.getLast?_cons_cons]
      exact h
    · rw [insertBeforeOffline, if_neg hx]
      by_cases ht : t = []
      · subst ht
        simp at h
        exact absurd h hx
      · have h2 : t.getLast? = some OFFLINE_UID := by
          rwa [getLast?_cons_ne_nil x ht] at h
        have h3 := ih h2
        rw [getLast?_cons_ne_nil x (ne_nil_of_getLast? h3)]
        exact h3

theorem filter_getLast_offline {l : List Uid} {p : Uid → Bool}
    (hp : p OFFLINE_UID = true) (h : l.getLast? = some OFFLINE_UID) :
    (l.filter p).getLast? = some OFFLINE_UID := by
  induction l with
  | nil => simp at h
  | cons x t ih =>
    cases t with
    | nil =>
      simp at h
      subst h
      simp [List.filter_cons, hp]
    | cons y t2 =>
      rw [List.getLast?_cons_cons] at h
      have h3 := ih h
      rw [List.filter_cons]
      by_cases hx : p x = true
      · simp only [hx, if_true]
        rw [getLast?_cons_ne_nil x (ne_nil_of_getLast? h3)]
        exact h3
      · simp only [hx, if_false]
        exact h3

theorem moveUidsLoop_flag (uids : Finset Uid) (c : Uid) (p : Bool) (tgt : Nat) :
    ∀ (l : List Uid) (n : Nat),
      (moveUidsLoop uids c p tgt l n).2.2 = true → c ∈ l ∧ p = true := by
  intro l
  induction l with
  | nil =>
    intro n h
    simp [moveUidsLoop] at h
  | cons u t ih =>
    intro n h
    rw [moveUidsLoop] at h
    by_cases hc : u ≠ OFFLINE_UID ∧ u ∈ uids
    · rw [if_pos hc] at h
      by_cases hb : n + 1 = tgt
      · rw [if_pos hb] at h
        have h2 : (u == c && p) = true := h
        simp only [Bool.and_eq_true, beq_iff_eq] at h2
        exact ⟨h2.1 ▸ List.mem_cons_self u t, h2.2⟩
      · rw [if_neg hb] at h
        have h2 : ((moveUidsLoop uids c p tgt t (n + 1)).2.2 || (u == c && p)) = true := h
        rcases Bool.or_eq_true_iff.mp h2 with hl | hr
        · obtain ⟨h3, h4⟩ := ih (n + 1) hl
          exact ⟨List.mem_cons_of_mem u h3, h4⟩
        · simp only [Bool.and_eq_true, beq_iff_eq] at hr
          exact ⟨hr.1 ▸ List.mem_cons_self u t, hr.2⟩
    · rw [if_neg hc] at h
      have h2 : (moveUidsLoop uids c p tgt t n).2.2 = true := h
      obtain ⟨h3, h4⟩ := ih n h2
      exact ⟨List.mem_cons_of_mem u h3, h4⟩

theorem moveUidsLoop_perm (uids : Finset Uid) (c : Uid) (p : Bool) (tgt : Nat) :
    ∀ (l : List Uid) (n : Nat), l.Nodup →
      List.Perm ((moveUidsLoop uids c p tgt l n).1 ++ (moveUidsLoop uids c p tgt l n).2.1
        ++ (if (moveUidsLoop uids c p tgt l n).2.2 = true then [c] else [])) l := by
  intro l
  induction l with
  | nil =>
    intro n _
    simp [moveUidsLoop]
  | cons u t ih =>
    intro n hnd
    rw [List.nodup_cons] at hnd
    obtain ⟨hu, hndt⟩ := hnd
    by_cases hc : u ≠ OFFLINE_UID ∧ u ∈ uids
    · by_cases hb : n + 1 = tgt
      · have he : moveUidsLoop uids c p tgt (u :: t) n =
            ((if (u == c && p) then [] else [u]), t, (u == c && p)) := by
          rw [moveUidsLoop, if_pos hc, if_pos hb]
        rw [he]
        by_cases htop : (u == c && p) = true
        · have huc : u = c := by
            simp only [Bool.and_eq_true, beq_iff_eq] at htop
            exact htop.1
          subst huc
          simp only [htop, if_true]
          simp [List.perm_append_singleton]
        · simp only [htop, if_false]
          simp [htop]
      · have he : moveUidsLoop uids c p tgt (u :: t) n =
            ((if (u == c && p) then (moveUidsLoop uids c p tgt t (n + 1)).1
              else (moveUidsLoop uids c p tgt t (n + 1)).1 ++ [u]),
             (moveUidsLoop uids c p tgt t (n + 1)).2.1,
             ((moveUidsLoop uids c p tgt t (n + 1)).2.2 || (u == c && p))) := by
          rw [moveUidsLoop, if_pos hc, if_neg hb]
        rw [he]
        have iht := ih (n + 1) hndt
        by_cases htop : (u == c && p) = true
        · have huc : u = c := by
            simp only [Bool.and_eq_true, beq_iff_eq] at htop
            exact htop.1
          have hrf : (moveUidsLoop uids c p tgt t (n + 1)).2.2 = false := by
            cases hh : (moveUidsLoop uids c p tgt t (n + 1)).2.2 with
            | false => rfl
            | true =>
              obtain ⟨hcin, _⟩ := moveUidsLoop_flag uids c p tgt t (n + 1) hh
              exact absurd (huc ▸ hcin) hu
          rw [hrf] at iht
          simp only [Bool.false_eq_true, if_false, List.append_nil] at iht
          simp only [htop, if_true, hrf, Bool.false_or]
          subst huc
          exact (iht.append_right [u]).trans (List.perm_append_singleton u t)
        · simp only [htop, Bool.false_eq_true, if_false, Bool.or_false]
          have e : (((moveUidsLoop uids c p tgt t (n + 1)).1 ++ [u]) ++
              (moveUidsLoop uids c p tgt t (n + 1)).2.1) ++
              (if (moveUidsLoop uids c p tgt t (n + 1)).2.2 = true then [c] else []) =
              (moveUidsLoop uids c p tgt t (n + 1)).1 ++
              (u :: ((moveUidsLoop uids c p tgt t (n + 1)).2.1 ++
                (if (moveUidsLoop uids c p tgt t (n + 1)).2.2 = true then [c] else []))) := by
            simp [List.append_assoc]
          rw [e]
          have iht2 : List.Perm ((moveUidsLoop uids c p tgt t (n + 1)).1 ++
              ((moveUidsLoop uids c p tgt t (n + 1)).2.1 ++
                (if (moveUidsLoop uids c p tgt t (n + 1)).2.2 = true then [c] else []))) t := by
            rw [← List.append_assoc]
            exact iht
          exact List.perm_middle.trans (iht2.cons u)
    · have he : moveUidsLoop uids c p tgt (u :: t) n =
          ((moveUidsLoop uids c p tgt t n).1,
           u :: (moveUidsLoop uids c p tgt t n).2.1,
           (moveUidsLoop uids c p tgt t n).2.2) := by
        rw [moveUidsLoop, if_neg hc]
      rw [he]
      have iht := ih n hndt
      have e : ((moveUidsLoop uids c p tgt t n).1 ++
          (u :: (moveUidsLoop uids c p tgt t n).2.1)) ++
          (if (moveUidsLoop uids c p tgt t n).2.2 = true then [c] else []) =
          (moveUidsLoop uids c p tgt t n).1 ++
          (u :: ((moveUidsLoop uids c p tgt t n).2.1 ++
            (if (moveUidsLoop uids c p tgt t n).2.2 = true then [c] else []))) := by
        simp [List.append_assoc]
      rw [e]
      have iht2 : List.Perm ((moveUidsLoop uids c p tgt t n).1 ++
          ((moveUidsLoop uids c p tgt t n).2.1 ++
            (if (moveUidsLoop uids c p tgt t n).2.2 = true then [c] else []))) t := by
        rw [← List.append_assoc]
        exact iht
      exact List.perm_middle.trans (iht2.cons u)

theorem moveUidsLoop_keptLast (uids : Finset Uid) (c : Uid) (p : Bool) (tgt : Nat) :
    ∀ (l : List Uid) (n : Nat), l.getLast? = some OFFLINE_UID →
      (moveUidsLoop uids c p tgt l n).2.1.getLast? = some OFFLINE_UID := by
  intro l
  induction l with
  | nil =>
    intro n h
    simp at h
  | cons u t ih =>
    intro n h
    by_cases hc : u ≠ OFFLINE_UID ∧ u ∈ uids
    · have ht : t ≠ [] := by
        intro he
        subst he
        simp at h
        exact hc.1 h
      have h2 : t.getLast? = some OFFLINE_UID := by
        rwa [getLast?_cons_ne_nil u ht] at h
      by_cases hb : n + 1 = tgt
      · have he : (moveUidsLoop uids c p tgt (u :: t) n).2.1 = t := by
          rw [moveUidsLoop, if_pos hc, if_pos hb]
        rw [he]
        exact h2
      · have he : (moveUidsLoop uids c p tgt (u :: t) n).2.1 =
            (moveUidsLoop uids c p tgt t (n + 1)).2.1 := by
          rw [moveUidsLoop, if_pos hc, if_neg hb]
        rw [he]
        exact ih (n + 1) h2
    · have he : (moveUidsLoop uids c p tgt (u :: t) n).2.1 =
          u :: (moveUidsLoop uids c p tgt t n).2.1 := by
        rw [moveUidsLoop, if_neg hc]
      rw [he]
      by_cases ht : t = []
      · subst ht
        simp at h
        simp [moveUidsLoop, h]
      · have h2 : t.getLast? = some OFFLINE_UID := by
          rwa [getLast?_cons_ne_nil u ht] at h
        have h3 := ih n h2
        rw [getLast?_cons_ne_nil u (ne_nil_of_getLast? h3)]
        exact h3

theorem moveUidsToTop_perm (uids : Finset Uid) (p : Bool) {l : List Uid}
    (hnd : l.Nodup) : List.Perm (moveUidsToTop_l uids p l) l := by
  by_cases hu : uids = ∅
  · simp [moveUidsToTop_l, hu]
  · cases l with
    | nil => simp [moveUidsToTop_l, hu]
    | cons c t =>
      have he : moveUidsToTop_l uids p (c :: t) =
          (if (moveUidsLoop uids c p uids.card (c :: t) 0).2.2 then
            c :: (moveUidsLoop uids c p uids.card (c :: t) 0).1
          else (moveUidsLoop uids c p uids.card (c :: t) 0).1)
          ++ (moveUidsLoop uids c p uids.card (c :: t) 0).2.1 := by
        simp [moveUidsToTop_l, hu]
      rw [he]
      have hperm := moveUidsLoop_perm uids c p uids.card (c :: t) 0 hnd
      by_cases hf : (moveUidsLoop uids c p uids.card (c :: t) 0).2.2 = true
      · simp only [hf, if_true]
        simp only [hf, if_true] at hperm
        have h1 : List.Perm
            (c :: ((moveUidsLoop uids c p uids.card (c :: t) 0).1 ++
              (moveUidsLoop uids c p uids.card (c :: t) 0).2.1))
            (((moveUidsLoop uids c p uids.card (c :: t) 0).1 ++
              (moveUidsLoop uids c p uids.card (c :: t) 0).2.1) ++ [c]) :=
          (List.perm_append_singleton c _).symm
        exact h1.trans hperm
      · have hf2 : (moveUidsLoop uids c p uids.card (c :: t) 0).2.2 = false := by
          cases hh : (moveUidsLoop uids c p uids.card (c :: t) 0).2.2 with
          | false => rfl
          | true => exact absurd hh hf
        simp only [hf2, Bool.false_eq_true, if_false, List.append_nil] at hperm
        simp only [hf2, Bool.false_eq_true, if_false]
        exact hperm

theorem moveUidsToTop_getLast (uids : Finset Uid) (p : Bool) {l : List Uid}
    (h : l.getLast? = some OFFLINE_UID) :
    (moveUidsToTop_l uids p l).getLast? = some OFFLINE_UID := by
  by_cases hu : uids = ∅
  · simpa [moveUidsToTop_l, hu] using h
  · cases l with
    | nil => simp at h
    | cons c t =>
      have hk := moveUidsLoop_keptLast uids c p uids.card (c :: t) 0 h
      have he : moveUidsToTop_l uids p (c :: t) =
          (if (moveUidsLoop uids c p uids.card (c :: t) 0).2.2 then
            c :: (moveUidsLoop uids c p uids.card (c :: t) 0).1
          else (moveUidsLoop uids c p uids.card (c :: t) 0).1)
          ++ (moveUidsLoop uids c p uids.card (c :: t) 0).2.1 := by
        simp [moveUidsToTop_l, hu]
      rw [he, List.getLast?_append_of_ne_nil _ (ne_nil_of_getLast? hk)]
      exact hk

theorem getTop_congr {st st' : Sched}
    (hq : st'.mSessionQueues = st.mSessionQueues)
    (hl : st'.mUidSortedList = st.mUidSortedList)
    (hm : st'.mSessionMap.isEmpty = st.mSessionMap.isEmpty) :
    getTopSession_l st' = getTopSession_l st := by
  unfold getTopSession_l queueOf
  rw [hq, hl, hm]

theorem isEmpty_aupdate_of_lookup {α β : Type} [DecidableEq α] {m : List (α × β)} {k : α}
    {v : β} (h : alookup m k = some v) (b : β) :
    (aupdate m k b).isEmpty = m.isEmpty := by
  have h1 : m ≠ [] := by
    rintro rfl
    simp [alookup] at h
  have h2 := aupdate_ne_nil m k b
  have hf : ∀ (l : List (α × β)), l ≠ [] → l.isEmpty = false := by
    intro l hl
    cases l with
    | nil => exact absurd rfl hl
    | cons x t => rfl
  rw [hf _ h1, hf _ h2]

theorem pause_cases (st : Sched) :
    (pauseCurrentIfRunning st = (st, [])) ∨
    (∃ curKey curS, st.mCurrentSession = some curKey ∧
      alookup st.mSessionMap curKey = some curS ∧ curS.state = SessionState.RUNNING ∧
      pauseCurrentIfRunning st =
        ({ st with mSessionMap :=
            aupdate st.mSessionMap curKey { curS with state := SessionState.PAUSED } },
         [Effect.pause curKey.1 curKey.2])) := by
  cases hcur : st.mCurrentSession with
  | none => exact Or.inl (by simp only [pauseCurrentIfRunning, hcur])
  | some curKey =>
    cases hs : alookup st.mSessionMap curKey with
    | none => exact Or.inl (by simp only [pauseCurrentIfRunning, hcur, hs])
    | some curS =>
      by_cases hr : curS.state = SessionState.RUNNING
      · refine Or.inr ⟨curKey, curS, rfl, hs, hr, ?_⟩
        simp only [pauseCurrentIfRunning, hcur, hs, if_pos hr]
      · exact Or.inl (by simp only [pauseCurrentIfRunning, hcur, hs, if_neg hr])

theorem startTop_cases (st : Sched) (topKey : SessionKey) :
    (alookup st.mSessionMap topKey = none ∧ startOrResumeTop st topKey = (st, [])) ∨
    (∃ ts, alookup st.mSessionMap topKey = some ts ∧
      startOrResumeTop st topKey =
        ({ st with mSessionMap :=
            aupdate st.mSessionMap topKey { ts with state := SessionState.RUNNING } },
         if ts.state = SessionState.NOT_STARTED then [Effect.start topKey.1 topKey.2]
         else if ts.state = SessionState.PAUSED then [Effect.resume topKey.1 topKey.2]
         else [])) := by
  cases hs : alookup st.mSessionMap topKey with
  | none => exact Or.inl ⟨rfl, by simp only [startOrResumeTop, hs]⟩
  | some ts =>
    refine Or.inr ⟨ts, rfl, ?_⟩
    simp only [startOrResumeTop, hs]

theorem pause_components (st : Sched) :
    (pauseCurrentIfRunning st).1.mSessionQueues = st.mSessionQueues ∧
    (pauseCurrentIfRunning st).1.mUidSortedList = st.mUidSortedList ∧
    (pauseCurrentIfRunning st).1.mResourceLost = st.mResourceLost ∧
    (pauseCurrentIfRunning st).1.mCurrentSession = st.mCurrentSession ∧
    (pauseCurrentIfRunning st).1.mSessionMap.isEmpty = st.mSessionMap.isEmpty := by
  rcases pause_cases st with hp | ⟨ck, cs, hcur, hs, hr, hp⟩
  · rw [hp]
    exact ⟨rfl, rfl, rfl, rfl, rfl⟩
  · rw [hp]
    exact ⟨rfl, rfl, rfl, rfl, isEmpty_aupdate_of_lookup hs _⟩

theorem start_components (st : Sched) (k : SessionKey) :
    (startOrResumeTop st k).1.mSessionQueues = st.mSessionQueues ∧
    (startOrResumeTop st k).1.mUidSortedList = st.mUidSortedList ∧
    (startOrResumeTop st k).1.mResourceLost = st.mResourceLost ∧
    (startOrResumeTop st k).1.mCurrentSession = st.mCurrentSession ∧
    (startOrResumeTop st k).1.mSessionMap.isEmpty = st.mSessionMap.isEmpty := by
  rcases startTop_cases st k with ⟨h1, h2⟩ | ⟨ts, h1, h2⟩
  · rw [h2]
    exact ⟨rfl, rfl, rfl, rfl, rfl⟩
  · rw [h2]
    exact ⟨rfl, rfl, rfl, rfl, isEmpty_aupdate_of_lookup h1 _⟩

theorem update_components (st : Sched) :
    (updateCurrentSession_l st).1.mSessionQueues = st.mSessionQueues ∧
    (updateCurrentSession_l st).1.mUidSortedList = st.mUidSortedList ∧
    (updateCurrentSession_l st).1.mResourceLost = st.mResourceLost ∧
    (updateCurrentSession_l st).1.mCurrentSession = getTopSession_l st ∧
    (updateCurrentSession_l st).1.mSessionMap.isEmpty = st.mSessionMap.isEmpty := by
  rw [updateCurrentSession_l]
  cases htop : getTopSession_l st with
  | none =>
    rw [updateCurrentGo]
    exact ⟨rfl, rfl, rfl, rfl, rfl⟩
  | some topKey =>
    rw [updateCurrentGo]
    by_cases hcond : some topKey ≠ st.mCurrentSession ∨
        (alookup st.mSessionMap topKey).map Session.state ≠ some SessionState.RUNNING
    · rw [if_pos hcond]
      by_cases hl : (pauseCurrentIfRunning st).1.mResourceLost = true
      · rw [if_pos hl]
        obtain ⟨pq, pu, pf, _, pe⟩ := pause_components st
        exact ⟨pq, pu, pf, rfl, pe⟩
      · rw [if_neg hl]
        obtain ⟨pq, pu, pf, _, pe⟩ := pause_components st
        obtain ⟨sq, su, sf, _, se⟩ := start_components (pauseCurrentIfRunning st).1 topKey
        exact ⟨sq.trans pq, su.trans pu, sf.trans pf, rfl, se.trans pe⟩
    · rw [if_neg hcond]
      exact ⟨rfl, rfl, rfl, rfl, rfl⟩

theorem update_self_top (st1 : Sched) :
    (updateCurrentSession_l st1).1.mCurrentSession =
      getTopSession_l (updateCurrentSession_l st1).1 := by
  obtain ⟨hq, hu, _, hc, he⟩ := update_components st1
  rw [hc, getTop_congr hq hu he]

theorem submit_sched (env : UidPolicyEnv) (st : Sched) (c : ClientId) (sid : SessionId)
    (uid0 : Uid) (req : TranscodingRequest) (cb : Bool) :
    (submit env st c sid uid0 req cb).2.1 = st ∨
    ∃ st1, (submit env st c sid uid0 req cb).2.1 = (updateCurrentSession_l st1).1 := by
  by_cases hdup : (alookup st.mSessionMap (c, sid)).isSome = true
  · left
    simp [submit, hdup]
  · right
    refine ⟨submitState env st c sid uid0 req cb, ?_⟩
    simp [submit, hdup]

theorem cancel_sched (env : UidPolicyEnv) (st : Sched) (c : ClientId) (sid : SessionId) :
    (cancel env st c sid).2.1 = st ∨
    ∃ st1, (cancel env st c sid).2.1 = (updateCurrentSession_l st1).1 := by
  by_cases hneg : sid < 0
  · right
    refine ⟨(cancelLoop env st (cancelKeys st c) []).1, ?_⟩
    simp [cancel, hneg]
  · by_cases hnone : (alookup st.mSessionMap (c, sid)).isNone = true
    · left
      simp [cancel, hneg, hnone]
    · right
      refine ⟨(cancelLoop env st [(c, sid)] []).1, ?_⟩
      simp [cancel, hneg, hnone]

theorem notify_cases (st : Sched) (c : ClientId) (sid : SessionId)
    (func : Sched → SessionKey → Session → Sched × List Effect) :
    (notifyClient st c sid func = (st, [])) ∨
    (∃ s, alookup st.mSessionMap (c, sid) = some s ∧
      s.state ≠ SessionState.NOT_STARTED ∧
      notifyClient st c sid func = func st (c, sid) s) := by
  cases hs : alookup st.mSessionMap (c, sid) with
  | none => exact Or.inl (by simp only [notifyClient, hs, notifyGo])
  | some s =>
    by_cases hns : s.state = SessionState.NOT_STARTED
    · exact Or.inl (by simp only [notifyClient, hs, notifyGo, if_pos hns])
    · exact Or.inr ⟨s, rfl, hns, by simp only [notifyClient, hs, notifyGo, if_neg hns]⟩

theorem onStarted_sched (st : Sched) (c : ClientId) (sid : SessionId) :
    (onStarted st c sid).1 = st := by
  unfold onStarted
  rcases notify_cases st c sid (fun st _ sess =>
      (st, if sess.cbAlive then [Effect.notifyStarted sid] else [])) with h | ⟨s, _, _, h⟩
  · rw [h]
  · rw [h]

theorem onPaused_sched (st : Sched) (c : ClientId) (sid : SessionId) :
    (onPaused st c sid).1 = st := by
  unfold onPaused
  rcases notify_cases st c sid (fun st _ sess =>
      (st, if sess.cbAlive then [Effect.notifyPaused sid] else [])) with h | ⟨s, _, _, h⟩
  · rw [h]
  · rw [h]

theorem onResumed_sched (st : Sched) (c : ClientId) (sid : SessionId) :
    (onResumed st c sid).1 = st := by
  unfold onResumed
  rcases notify_cases st c sid (fun st _ sess =>
      (st, if sess.cbAlive then [Effect.notifyResumed sid] else [])) with h | ⟨s, _, _, h⟩
  · rw [h]
  · rw [h]

theorem onFinish_sched (env : UidPolicyEnv) (st : Sched) (c : ClientId) (sid : SessionId) :
    (onFinish env st c sid).1 = st ∨
    ∃ st1, (onFinish env st c sid).1 = (updateCurrentSession_l st1).1 := by
  unfold onFinish
  rcases notify_cases st c sid (fun st k sess =>
      ((updateCurrentSession_l (removeSession_l env st k).1).1,
       (if sess.cbAlive then [Effect.notifyFinished sid] else []) ++
         (removeSession_l env st k).2 ++
         (updateCurrentSession_l (removeSession_l env st k).1).2)) with h | ⟨s, _, _, h⟩
  · left
    rw [h]
  · right
    rw [h]
    exact ⟨(removeSession_l env st (c, sid)).1, rfl⟩

theorem onError_sched (env : UidPolicyEnv) (st : Sched) (c : ClientId) (sid : SessionId)
    (err : Int) :
    (onError env st c sid err).1 = st ∨
    ∃ st1, (onError env st c sid err).1 = (updateCurrentSession_l st1).1 := by
  unfold onError
  rcases notify_cases st c sid (fun st k sess =>
      ((updateCurrentSession_l (removeSession_l env st k).1).1,
       (if sess.cbAlive then [Effect.notifyFailed sid err] else []) ++
         (removeSession_l env st k).2 ++
         (updateCurrentSession_l (removeSession_l env st k).1).2)) with h | ⟨s, _, _, h⟩
  · left
    rw [h]
  · right
    rw [h]
    exact ⟨(removeSession_l env st (c, sid)).1, rfl⟩

theorem onProgress_components (st : Sched) (c : ClientId) (sid : SessionId)
    (progress : Int) :
    (onProgressUpdate st c sid progress).1.mCurrentSession = st.mCurrentSession ∧
    getTopSession_l (onProgressUpdate st c sid progress).1 = getTopSession_l st := by
  unfold onProgressUpdate
  rcases notify_cases st c sid (fun st k sess =>
      ({ st with mSessionMap := aupdate st.mSessionMap k { sess with lastProgress := progress } },
       if sess.cbAlive then [Effect.notifyProgress sid progress] else []))
    with h | ⟨s, hs, _, h⟩
  · rw [h]
    exact ⟨rfl, rfl⟩
  · rw [h]
    exact ⟨rfl, getTop_congr rfl rfl (isEmpty_aupdate_of_lookup hs _)⟩

theorem resourceLostPause_cases (st : Sched) :
    (resourceLostPause st = (st, [])) ∨
    (∃ ck cs, st.mCurrentSession = some ck ∧ alookup st.mSessionMap ck = some cs ∧
      cs.state = SessionState.RUNNING ∧
      resourceLostPause st =
        ({ st with mSessionMap :=
            aupdate st.mSessionMap ck { cs with state := SessionState.PAUSED } },
         if cs.cbAlive then [Effect.notifyPaused cs.key.2] else [])) := by
  cases hcur : st.mCurrentSession with
  | none => exact Or.inl (by simp only [resourceLostPause, hcur])
  | some ck =>
    cases hs : alookup st.mSessionMap ck with
    | none => exact Or.inl (by simp only [resourceLostPause, hcur, hs])
    | some cs =>
      by_cases hr : cs.state = SessionState.RUNNING
      · refine Or.inr ⟨ck, cs, rfl, hs, hr, ?_⟩
        simp only [resourceLostPause, hcur, hs, if_pos hr]
      · exact Or.inl (by simp only [resourceLostPause, hcur, hs, if_neg hr])

theorem resourceLostPause_components (st : Sched) :
    (resourceLostPause st).1.mSessionQueues = st.mSessionQueues ∧
    (resourceLostPause st).1.mUidSortedList = st.mUidSortedList ∧
    (resourceLostPause st).1.mCurrentSession = st.mCurrentSession ∧
    (resourceLostPause st).1.mSessionMap.isEmpty = st.mSessionMap.isEmpty := by
  rcases resourceLostPause_cases st with hp | ⟨ck, cs, hcur, hs, hr, hp⟩
  · rw [hp]
    exact ⟨rfl, rfl, rfl, rfl⟩
  · rw [hp]
    exact ⟨rfl, rfl, rfl, isEmpty_aupdate_of_lookup hs _⟩

theorem onResourceLost_components (st : Sched) :
    (onResourceLost st).1.mCurrentSession = st.mCurrentSession ∧
    getTopSession_l (onResourceLost st).1 = getTopSession_l st := by
  by_cases hl : st.mResourceLost = true
  · simp [onResourceLost, hl]
  · have he1 : (onResourceLost st).1 =
        { (resourceLostPause st).1 with mResourceLost := true } := by
      simp [onResourceLost, hl]
    obtain ⟨hq, hu, hc, he⟩ := resourceLostPause_components st
    rw [he1]
    exact ⟨hc, getTop_congr hq hu he⟩

theorem onTopUidsChanged_sched (st : Sched) (uids : Finset Uid) :
    (onTopUidsChanged st uids).1 = st ∨
    ∃ st1, (onTopUidsChanged st uids).1 = (updateCurrentSession_l st1).1 := by
  by_cases hu : uids = ∅
  · left
    simp [onTopUidsChanged, hu]
  · right
    refine ⟨{ st with mUidSortedList := moveUidsToTop_l uids true st.mUidSortedList }, ?_⟩
    simp [onTopUidsChanged, hu]

theorem onResourceAvailable_sched (st : Sched) :
    (onResourceAvailable st).1 = st ∨
    ∃ st1, (onResourceAvailable st).1 = (updateCurrentSession_l st1).1 := by
  by_cases hl : st.mResourceLost = true
  · right
    refine ⟨{ st with mResourceLost := false }, ?_⟩
    simp [onResourceAvailable, hl]
  · left
    simp [onResourceAvailable, hl]

/-- C2: in every reachable controller state the current-session pointer is
null or equal to the top session computed by getTopSession_l. -/
theorem currentIsTopSpec (st : Sched) (h : Reachable st) :
    st.mCurrentSession = none ∨ st.mCurrentSession = getTopSession_l st := by
  induction h with
  | init => exact Or.inl rfl
  | step hr hstep ih =>
    rename_i st0 st1
    cases hstep with
    | submit env c sid uid req cb =>
      rcases submit_sched env st0 c sid uid req cb with he | ⟨s1, he⟩
      · rw [he]
        exact ih
      · rw [he]
        exact Or.inr (update_self_top s1)
    | cancel env c sid =>
      rcases cancel_sched env st0 c sid with he | ⟨s1, he⟩
      · rw [he]
        exact ih
      · rw [he]
        exact Or.inr (update_self_top s1)
    | onStarted c sid =>
      rw [onStarted_sched st0 c sid]
      exact ih
    | onPaused c sid =>
      rw [onPaused_sched st0 c sid]
      exact ih
    | onResumed c sid =>
      rw [onResumed_sched st0 c sid]
      exact ih
    | onFinish env c sid =>
      rcases onFinish_sched env st0 c sid with he | ⟨s1, he⟩
      · rw [he]
        exact ih
      · rw [he]
        exact Or.inr (update_self_top s1)
    | onError env c sid err =>
      rcases onError_sched env st0 c sid err with he | ⟨s1, he⟩
      · rw [he]
        exact ih
      · rw [he]
        exact Or.inr (update_self_top s1)
    | onProgressUpdate c sid progress =>
      obtain ⟨hc, ht⟩ := onProgress_components st0 c sid progress
      rcases ih with h0 | h0
      · exact Or.inl (hc.trans h0)
      · exact Or.inr ((hc.trans h0).trans ht.symm)
    | onResourceLost =>
      obtain ⟨hc, ht⟩ := onResourceLost_components st0
      rcases ih with h0 | h0
      · exact Or.inl (hc.trans h0)
      · exact Or.inr ((hc.trans h0).trans ht.symm)
    | onTopUidsChanged uids =>
      rcases onTopUidsChanged_sched st0 uids with he | ⟨s1, he⟩
      · rw [he]
        exact ih
      · rw [he]
        exact Or.inr (update_self_top s1)
    | onResourceAvailable =>
      rcases onResourceAvailable_sched st0 with he | ⟨s1, he⟩
      · rw [he]
        exact ih
      · rw [he]
        exact Or.inr (update_self_top s1)

/-- C2 witness: after one submit the current session equals the top
session of the resulting state. -/
theorem currentIsTopSpec_witness :
    stA.mCurrentSession = none ∨ stA.mCurrentSession = getTopSession_l stA :=
  currentIsTopSpec stA
    (Reachable.step Reachable.init (SchedStep.submit initialController envTop 1 1 100 reqRT true))

theorem proj_alookup {m m' : List (SessionKey × Session)}
    (h : m'.map (fun e => (e.1, e.2.uid)) = m.map (fun e => (e.1, e.2.uid)))
    (k : SessionKey) :
    (alookup m' k).map Session.uid = (alookup m k).map Session.uid := by
  induction m' generalizing m with
  | nil =>
    cases m with
    | nil => rfl
    | cons e t => simp at h
  | cons e' t' ih =>
    obtain ⟨k', v'⟩ := e'
    cases m with
    | nil => simp at h
    | cons e t =>
      obtain ⟨k2, v2⟩ := e
      simp only [List.map_cons, List.cons.injEq, Prod.mk.injEq] at h
      obtain ⟨⟨h1, h2⟩, h3⟩ := h
      subst h1
      by_cases hk : k = k'
      · simp [alookup, hk, h2]
      · simp only [alookup, if_neg hk]
        exact ih h3

theorem proj_keys {m m' : List (SessionKey × Session)}
    (h : m'.map (fun e => (e.1, e.2.uid)) = m.map (fun e => (e.1, e.2.uid))) :
    m'.map Prod.fst = m.map Prod.fst := by
  have h2 := congrArg (List.map Prod.fst) h
  simpa [List.map_map] using h2

theorem proj_mem {m m' : List (SessionKey × Session)}
    (h : m'.map (fun e => (e.1, e.2.uid)) = m.map (fun e => (e.1, e.2.uid)))
    {e' : SessionKey × Session} (he' : e' ∈ m') :
    ∃ e ∈ m, e.1 = e'.1 ∧ e.2.uid = e'.2.uid := by
  have hmem : (e'.1, e'.2.uid) ∈ m.map (fun e => (e.1, e.2.uid)) := by
    rw [← h]
    exact List.mem_map_of_mem _ he'
  obtain ⟨e, hem, hee⟩ := List.mem_map.mp hmem
  simp only [Prod.mk.injEq] at hee
  exact ⟨e, hem, hee.1, hee.2⟩

theorem proj_isEmpty {m m' : List (SessionKey × Session)}
    (h : m'.map (fun e => (e.1, e.2.uid)) = m.map (fun e => (e.1, e.2.uid))) :
    m'.isEmpty = m.isEmpty := by
  cases m with
  | nil =>
    cases m' with
    | nil => rfl
    | cons e t => simp at h
  | cons e t =>
    cases m' with
    | nil => simp at h
    | cons e2 t2 => rfl

theorem proj_aupdate {m : List (SessionKey × Session)} {k : SessionKey} {s s' : Session}
    (hs : alookup m k = some s) (huid : s'.uid = s.uid) :
    (aupdate m k s').map (fun e => (e.1, e.2.uid)) =
      m.map (fun e => (e.1, e.2.uid)) := by
  induction m with
  | nil => simp [alookup] at hs
  | cons e t ih =>
    obtain ⟨k2, v2⟩ := e
    by_cases hk : k2 = k
    · subst hk
      simp only [alookup, if_pos rfl] at hs
      have he : aupdate ((k2, v2) :: t) k2 s' = (k2, s') :: t := by simp [aupdate]
      rw [he]
      simp only [List.map_cons]
      have hv : v2 = s := by
        injection hs
      rw [huid, hv]
    · have hk2 : ¬(k = k2) := fun hh => hk hh.symm
      simp only [alookup, if_neg hk2] at hs
      have he : aupdate ((k2, v2) :: t) k s' = (k2, v2) :: aupdate t k s' := by
        simp [aupdate, hk]
      rw [he]
      simp only [List.map_cons]
      rw [ih hs]

theorem struct_transfer {st st' : Sched} (hwf : StructWF st)
    (hq : st'.mSessionQueues = st.mSessionQueues)
    (hu : st'.mUidSortedList = st.mUidSortedList)
    (hm : st'.mSessionMap.map (fun e => (e.1, e.2.uid)) =
      st.mSessionMap.map (fun e => (e.1, e.2.uid))) : StructWF st' := by
  obtain ⟨h1, h2, h3, h4, h5, h6, h7, h8, h9, h10⟩ := hwf
  refine ⟨?_, ?_, ?_, ?_, ?_, ?_, ?_, ?_, ?_, ?_⟩
  · rw [proj_keys hm]
    exact h1
  · rw [hq]
    exact h2
  · rw [hu]
    exact h3
  · intro u hmem
    rw [hq]
    exact h4 u (hu ▸ hmem)
  · intro q hqmem
    rw [hu]
    exact h5 q (hq ▸ hqmem)
  · rw [hu]
    exact h6
  · intro e hmem
    obtain ⟨e0, he0, hk, huid⟩ := proj_mem hm hmem
    have := h7 e0 he0
    unfold queueOf
    rw [hq, ← huid, ← hk]
    exact this
  · intro q hqmem k hk
    have := h8 q (hq ▸ hqmem) k hk
    rw [proj_alookup hm k]
    exact this
  · intro q hqmem
    exact h9 q (hq ▸ hqmem)
  · intro q hqmem
    exact h10 q (hq ▸ hqmem)

theorem wf_top_some (st : Sched) (hwf : StructWF st) (hne : st.mSessionMap ≠ []) :
    ∃ u rest, st.mUidSortedList = u :: rest ∧ queueOf st u ≠ [] ∧
      getTopSession_l st = (queueOf st u).head? := by
  obtain ⟨h1, h2, h3, h4, h5, h6, h7, h8, h9, h10⟩ := hwf
  obtain ⟨u, rest, hul⟩ : ∃ u rest, st.mUidSortedList = u :: rest := by
    cases hcl : st.mUidSortedList with
    | nil =>
      rw [hcl] at h6
      simp at h6
    | cons u rest => exact ⟨u, rest, rfl⟩
  have hqe : queueOf st u ≠ [] := by
    by_cases huo : u = OFFLINE_UID
    · subst huo
      have hrest : rest = [] := by
        cases hrn : rest with
        | nil => rfl
        | cons r t =>
          rw [hul, hrn] at h6 h3
          rw [List.getLast?_cons_cons] at h6
          have hmem : OFFLINE_UID ∈ r :: t := by
            have := List.mem_of_mem_getLast? (by rw [h6]; exact rfl)
            exact this
          rw [List.nodup_cons] at h3
          exact absurd hmem h3.1
      obtain ⟨e, hem⟩ : ∃ e, e ∈ st.mSessionMap := by
        cases hm : st.mSessionMap with
        | nil => exact absurd hm hne
        | cons e t => exact ⟨e, List.mem_cons_self e t⟩
      have hin := h7 e hem
      have hq : (alookup st.mSessionQueues e.2.uid).isSome = true := by
        cases hqq : alookup st.mSessionQueues e.2.uid with
        | none =>
          unfold queueOf at hin
          rw [hqq] at hin
          simp at hin
        | some q => rfl
      obtain ⟨q0, hq0⟩ := Option.isSome_iff_exists.mp hq
      have hentry := alookup_mem hq0
      have huid_mem := h5 (e.2.uid, q0) hentry
      rw [hul, hrest] at huid_mem
      have heuid : e.2.uid = OFFLINE_UID := by
        simpa using huid_mem
      unfold queueOf at hin ⊢
      rw [← heuid]
      intro hnil
      rw [hnil] at hin
      simp at hin
    · have humem : u ∈ st.mUidSortedList := by
        rw [hul]
        exact List.mem_cons_self u rest
      have hq := h4 u humem
      obtain ⟨q0, hq0⟩ := Option.isSome_iff_exists.mp hq
      have hentry := alookup_mem hq0
      have := h10 (u, q0) hentry huo
      unfold queueOf
      rw [hq0]
      exact this
  refine ⟨u, rest, hul, hqe, ?_⟩
  unfold getTopSession_l
  have hie : st.mSessionMap.isEmpty = false := by
    cases hm : st.mSessionMap with
    | nil => exact absurd hm hne
    | cons e t => rfl
  rw [hie, hul]
  simp

theorem pause_proj (st : Sched) :
    (pauseCurrentIfRunning st).1.mSessionMap.map (fun e => (e.1, e.2.uid)) =
      st.mSessionMap.map (fun e => (e.1, e.2.uid)) := by
  rcases pause_cases st with hp | ⟨ck, cs, hcur, hs, hr, hp⟩
  · rw [hp]
  · rw [hp]
    exact proj_aupdate hs rfl

theorem start_proj (st : Sched) (k : SessionKey) :
    (startOrResumeTop st k).1.mSessionMap.map (fun e => (e.1, e.2.uid)) =
      st.mSessionMap.map (fun e => (e.1, e.2.uid)) := by
  rcases startTop_cases st k with ⟨h1, h2⟩ | ⟨ts, h1, h2⟩
  · rw [h2]
  · rw [h2]
    exact proj_aupdate h1 rfl

theorem update_proj (st : Sched) :
    (updateCurrentSession_l st).1.mSessionMap.map (fun e => (e.1, e.2.uid)) =
      st.mSessionMap.map (fun e => (e.1, e.2.uid)) := by
  rw [updateCurrentSession_l]
  cases htop : getTopSession_l st with
  | none => simp only [updateCurrentGo]
  | some topKey =>
    simp only [updateCurrentGo]
    by_cases hcond : some topKey ≠ st.mCurrentSession ∨
        (alookup st.mSessionMap topKey).map Session.state ≠ some SessionState.RUNNING
    · rw [if_pos hcond]
      by_cases hl : (pauseCurrentIfRunning st).1.mResourceLost = true
      · rw [if_pos hl]
        exact pause_proj st
      · rw [if_neg hl]
        exact (start_proj (pauseCurrentIfRunning st).1 topKey).trans (pause_proj st)
    · rw [if_neg hcond]

theorem update_wf (st : Sched) (hwf : StructWF st) :
    StructWF (updateCurrentSession_l st).1 := by
  obtain ⟨hq, hu, _, _, _⟩ := update_components st
  exact struct_transfer hwf hq hu (update_proj st)

theorem pause_no_running (st : Sched) (hric : RunningIsCur st) :
    ∀ k s, alookup (pauseCurrentIfRunning st).1.mSessionMap k = some s →
      s.state ≠ SessionState.RUNNING := by
  intro k s hk hrun
  cases hcur : st.mCurrentSession with
  | none =>
    rw [show pauseCurrentIfRunning st = (st, []) from
      by simp only [pauseCurrentIfRunning, hcur]] at hk
    have h1 := hric k s hk hrun
    rw [hcur] at h1
    exact Option.noConfusion h1
  | some ck =>
    cases hs : alookup st.mSessionMap ck with
    | none =>
      rw [show pauseCurrentIfRunning st = (st, []) from
        by simp only [pauseCurrentIfRunning, hcur, hs]] at hk
      have h1 := hric k s hk hrun
      rw [hcur] at h1
      injection h1 with h1
      rw [h1] at hs
      rw [hk] at hs
      exact Option.noConfusion hs
    | some cs =>
      by_cases hr : cs.state = SessionState.RUNNING
      · rw [show pauseCurrentIfRunning st =
            ({ st with mSessionMap :=
                aupdate st.mSessionMap ck { cs with state := SessionState.PAUSED } },
             [Effect.pause ck.1 ck.2]) from
          by simp only [pauseCurrentIfRunning, hcur, hs, if_pos hr]] at hk
        by_cases hkck : k = ck
        · subst hkck
          rw [alookup_aupdate_self] at hk
          injection hk with hk
          rw [← hk] at hrun
          exact SessionState.noConfusion hrun
        · rw [alookup_aupdate_ne _ _ _ _ hkck] at hk
          have h1 := hric k s hk hrun
          rw [hcur] at h1
          injection h1 with h1
          exact hkck h1.symm
      · rw [show pauseCurrentIfRunning st = (st, []) from
          by simp only [pauseCurrentIfRunning, hcur, hs, if_neg hr]] at hk
        have h1 := hric k s hk hrun
        rw [hcur] at h1
        injection h1 with h1
        rw [h1] at hs
        rw [hk] at hs
        injection hs with hs
        rw [hs] at hrun
        exact hr hrun

theorem update_ric (st : Sched) (hwf : StructWF st) (hric : RunningIsCur st) :
    RunningIsCur (updateCurrentSession_l st).1 := by
  intro k s hk hrun
  have hcur2 : (updateCurrentSession_l st).1.mCurrentSession = getTopSession_l st :=
    (update_components st).2.2.2.1
  rw [hcur2]
  rw [updateCurrentSession_l] at hk
  cases htop : getTopSession_l st with
  | none =>
    rw [htop] at hk
    simp only [updateCurrentGo] at hk
    by_cases hne : st.mSessionMap = []
    · rw [hne] at hk
      simp [alookup] at hk
    · obtain ⟨u, rest, hul, hq, htop2⟩ := wf_top_some st hwf hne
      rw [htop] at htop2
      cases hqq : queueOf st u with
      | nil => exact absurd hqq hq
      | cons a t =>
        rw [hqq] at htop2
        simp at htop2
  | some topKey =>
    rw [htop] at hk
    simp only [updateCurrentGo] at hk
    by_cases hcond : some topKey ≠ st.mCurrentSession ∨
        (alookup st.mSessionMap topKey).map Session.state ≠ some SessionState.RUNNING
    · rw [if_pos hcond] at hk
      by_cases hl : (pauseCurrentIfRunning st).1.mResourceLost = true
      · rw [if_pos hl] at hk
        exact absurd hrun (pause_no_running st hric k s hk)
      · rw [if_neg hl] at hk
        rcases startTop_cases (pauseCurrentIfRunning st).1 topKey with ⟨h1, h2⟩ | ⟨ts, h1, h2⟩
        · rw [h2] at hk
          exact absurd hrun (pause_no_running st hric k s hk)
        · rw [h2] at hk
          by_cases hkt : k = topKey
          · rw [hkt]
          · rw [alookup_aupdate_ne _ _ _ _ hkt] at hk
            exact absurd hrun (pause_no_running st hric k s hk)
    · rw [if_neg hcond] at hk
      push_neg at hcond
      have h1 := hric k s hk hrun
      exact hcond.1.trans h1

theorem mem_aupdate {α β : Type} [DecidableEq α] {l : List (α × β)} {a : α} {b : β}
    {e : α × β} (hnd : (l.map Prod.fst).Nodup) (he : e ∈ aupdate l a b) :
    e = (a, b) ∨ (e ∈ l ∧ e.1 ≠ a) := by
  induction l with
  | nil =>
    simp [aupdate] at he
    exact Or.inl he
  | cons e0 t ih =>
    obtain ⟨k0, v0⟩ := e0
    rw [List.map_cons, List.nodup_cons] at hnd
    by_cases hk : k0 = a
    · subst hk
      rw [show aupdate ((k0, v0) :: t) k0 b = (k0, b) :: t from by simp [aupdate]] at he
      rcases List.mem_cons.mp he with he | he
      · exact Or.inl he
      · refine Or.inr ⟨List.mem_cons_of_mem _ he, fun hek => ?_⟩
        have hmm : e.1 ∈ t.map Prod.fst := List.mem_map_of_mem Prod.fst he
        rw [hek] at hmm
        exact hnd.1 hmm
    · rw [show aupdate ((k0, v0) :: t) a b = (k0, v0) :: aupdate t a b from
        by simp [aupdate, hk]] at he
      rcases List.mem_cons.mp he with he | he
      · refine Or.inr ⟨by rw [he]; exact List.mem_cons_self _ _, ?_⟩
        rw [he]
        exact hk
      · rcases ih hnd.2 he with h | ⟨h1, h2⟩
        · exact Or.inl h
        · exact Or.inr ⟨List.mem_cons_of_mem _ h1, h2⟩

theorem submitStep_spec (env : UidPolicyEnv) (st : Sched) (uid : Uid)
    (hwf : StructWF st) :
    (submitStep env st uid).1.Nodup ∧
    (submitStep env st uid).1.getLast? = some OFFLINE_UID ∧
    (∀ x, x ∈ (submitStep env st uid).1 ↔ x = uid ∨ x ∈ st.mUidSortedList) := by
  obtain ⟨h1, h2, h3, h4, h5, h6, h7, h8, h9, h10⟩ := hwf
  have hoff_mem : OFFLINE_UID ∈ st.mUidSortedList :=
    List.mem_of_mem_getLast? (by rw [h6]; exact rfl)
  have hlne : st.mUidSortedList ≠ [] := by
    intro hh
    rw [hh] at hoff_mem
    simp at hoff_mem
  unfold submitStep
  by_cases hu : uid ≠ OFFLINE_UID
  · rw [if_pos hu]
    by_cases hq : (alookup st.mSessionQueues uid).isNone = true
    · rw [if_pos hq]
      have hnotin : uid ∉ st.mUidSortedList := by
        intro hmem
        have hsome := h4 uid hmem
        rw [Option.isNone_iff_eq_none] at hq
        rw [hq] at hsome
        exact Bool.noConfusion hsome
      by_cases ht : env.isUidOnTop uid = true
      · rw [if_pos ht]
        refine ⟨List.nodup_cons.mpr ⟨hnotin, h3⟩, ?_, ?_⟩
        · rw [getLast?_cons_ne_nil _ hlne]
          exact h6
        · intro x
          simp [List.mem_cons]
      · rw [if_neg ht]
        have hperm := insertBeforeOffline_perm st.mUidSortedList uid
        refine ⟨hperm.nodup_iff.mpr (List.nodup_cons.mpr ⟨hnotin, h3⟩),
          insertBeforeOffline_getLast uid h6, ?_⟩
        intro x
        rw [hperm.mem_iff]
        simp [List.mem_cons]
    · rw [if_neg hq]
      have hinlist : uid ∈ st.mUidSortedList := by
        have hsome : (alookup st.mSessionQueues uid).isSome = true := by
          cases ho : alookup st.mSessionQueues uid with
          | none =>
            rw [Option.isNone_iff_eq_none] at hq
            exact absurd ho hq
          | some q => rfl
        obtain ⟨q0, hq0⟩ := Option.isSome_iff_exists.mp hsome
        exact h5 (uid, q0) (alookup_mem hq0)
      have helse : (st.mUidSortedList, ([] : List Effect)).1.Nodup ∧
          (st.mUidSortedList, ([] : List Effect)).1.getLast? = some OFFLINE_UID ∧
          (∀ x, x ∈ (st.mUidSortedList, ([] : List Effect)).1 ↔
            x = uid ∨ x ∈ st.mUidSortedList) := by
        refine ⟨h3, h6, ?_⟩
        intro x
        constructor
        · exact fun hx => Or.inr hx
        · intro hx
          rcases hx with hx | hx
          · rw [hx]
            exact hinlist
          · exact hx
      by_cases hh : st.mUidSortedList.head? = some uid
      · rw [if_neg (fun hcon => hcon hh)]
        exact helse
      · rw [if_pos hh]
        by_cases ht : env.isUidOnTop uid = true
        · rw [if_pos ht]
          have hoffuid : OFFLINE_UID ≠ uid := fun hh2 => hu hh2.symm
          have hfl := filter_getLast_offline
            (p := fun x => decide (x ≠ uid)) (by simp [hoffuid]) h6
          refine ⟨?_, ?_, ?_⟩
          · refine List.nodup_cons.mpr ⟨?_, h3.filter _⟩
            intro hmem
            rw [List.mem_filter] at hmem
            simp at hmem
          · rw [getLast?_cons_ne_nil _ (ne_nil_of_getLast? hfl)]
            exact hfl
          · intro x
            constructor
            · intro hx
              rcases List.mem_cons.mp hx with hx | hx
              · exact Or.inl hx
              · exact Or.inr (List.mem_of_mem_filter hx)
            · intro hx
              by_cases hxu : x = uid
              · rw [hxu]
                exact List.mem_cons_self _ _
              · rcases hx with hx | hx
                · exact absurd hx hxu
                · exact List.mem_cons_of_mem _ (List.mem_filter.mpr ⟨hx, by simp [hxu]⟩)
        · rw [if_neg ht]
          exact helse
  · rw [if_neg hu]
    have huid : uid = OFFLINE_UID := not_not.mp hu
    refine ⟨h3, h6, ?_⟩
    intro x
    constructor
    · exact fun hx => Or.inr hx
    · intro hx
      rcases hx with hx | hx
      · rw [hx, huid]
        exact hoff_mem
      · exact hx

theorem submit_wf (env : UidPolicyEnv) (st : Sched) (c : ClientId) (sid : SessionId)
    (uid0 : Uid) (req : TranscodingRequest) (cb : Bool)
    (hwf : StructWF st) (hfresh : alookup st.mSessionMap (c, sid) = none) :
    StructWF (submitState env st c sid uid0 req cb) := by
  obtain ⟨hsnd, hslast, hsmem⟩ := submitStep_spec env st (submitUid uid0 req) hwf
  obtain ⟨h1, h2, h3, h4, h5, h6, h7, h8, h9, h10⟩ := hwf
  have hknotq : ∀ q ∈ st.mSessionQueues, (c, sid) ∉ q.2 := by
    intro q hq hk
    have hmap := h8 q hq (c, sid) hk
    rw [hfresh] at hmap
    simp at hmap
  have hnewq_nodup : (queueOf st (submitUid uid0 req) ++ [(c, sid)]).Nodup := by
    have hkold : (c, sid) ∉ queueOf st (submitUid uid0 req) := by
      cases ho : alookup st.mSessionQueues (submitUid uid0 req) with
      | none =>
        unfold queueOf
        rw [ho]
        simp
      | some q0 =>
        unfold queueOf
        rw [ho]
        exact fun hk => hknotq (submitUid uid0 req, q0) (alookup_mem ho) hk
    have hqnodup : (queueOf st (submitUid uid0 req)).Nodup := by
      cases ho : alookup st.mSessionQueues (submitUid uid0 req) with
      | none =>
        unfold queueOf
        rw [ho]
        exact List.nodup_nil
      | some q0 =>
        unfold queueOf
        rw [ho]
        exact h9 (submitUid uid0 req, q0) (alookup_mem ho)
    exact (List.perm_append_singleton _ _).nodup_iff.mpr
      (List.nodup_cons.mpr ⟨hkold, hqnodup⟩)
  refine ⟨?_, ?_, ?_, ?_, ?_, ?_, ?_, ?_, ?_, ?_⟩
  · exact keys_aupdate_nodup _ _ h1
  · exact keys_aupdate_nodup _ _ h2
  · exact hsnd
  · intro u hmem
    rcases (hsmem u).mp hmem with hx | hx
    · rw [hx]
      show (alookup (aupdate st.mSessionQueues (submitUid uid0 req)
        (queueOf st (submitUid uid0 req) ++ [(c, sid)])) (submitUid uid0 req)).isSome = true
      rw [alookup_aupdate_self]
      rfl
    · by_cases hxu : u = submitUid uid0 req
      · rw [hxu]
        show (alookup (aupdate st.mSessionQueues (submitUid uid0 req)
          (queueOf st (submitUid uid0 req) ++ [(c, sid)])) (submitUid uid0 req)).isSome = true
        rw [alookup_aupdate_self]
        rfl
      · show (alookup (aupdate st.mSessionQueues (submitUid uid0 req)
          (queueOf st (submitUid uid0 req) ++ [(c, sid)])) u).isSome = true
        rw [alookup_aupdate_ne _ _ _ _ hxu]
        exact h4 u hx
  · intro q hq
    rcases mem_aupdate h2 hq with hq1 | ⟨hq1, hq2⟩
    · rw [hq1]
      exact (hsmem (submitUid uid0 req)).mpr (Or.inl rfl)
    · exact (hsmem q.1).mpr (Or.inr (h5 q hq1))
  · exact hslast
  · intro e hmem
    rcases mem_aupdate h1 hmem with he | ⟨he, hne⟩
    · rw [he]
      show (c, sid) ∈ queueOf (submitState env st c sid uid0 req cb)
        (submitSess (c, sid) (submitUid uid0 req) req cb).uid
      have huid : (submitSess (c, sid) (submitUid uid0 req) req cb).uid =
        submitUid uid0 req := rfl
      rw [huid]
      unfold queueOf submitState
      rw [alookup_aupdate_self]
      simp
    · have hold := h7 e he
      show e.1 ∈ queueOf (submitState env st c sid uid0 req cb) e.2.uid
      unfold queueOf submitState at *
      by_cases heu : e.2.uid = submitUid uid0 req
      · rw [heu, alookup_aupdate_self]
        rw [heu] at hold
        simp only [Option.getD_some]
        exact List.mem_append_left _ hold
      · rw [alookup_aupdate_ne _ _ _ _ heu]
        exact hold
  · intro q hq k hk
    rcases mem_aupdate h2 hq with hq1 | ⟨hq1, hq2⟩
    · rw [hq1] at hk
      show (alookup (aupdate st.mSessionMap (c, sid)
        (submitSess (c, sid) (submitUid uid0 req) req cb)) k).map Session.uid = some q.1
      rcases List.mem_append.mp hk with hko | hkn
      · cases ho : alookup st.mSessionQueues (submitUid uid0 req) with
        | none =>
          unfold queueOf at hko
          rw [ho] at hko
          simp at hko
        | some q0 =>
          unfold queueOf at hko
          rw [ho] at hko
          simp only [Option.getD_some] at hko
          have hmap := h8 (submitUid uid0 req, q0) (alookup_mem ho) k hko
          have hkne : k ≠ (c, sid) := by
            intro hkk
            rw [hkk, hfresh] at hmap
            simp at hmap
          rw [alookup_aupdate_ne _ _ _ _ hkne]
          rw [hq1]
          exact hmap
      · simp only [List.mem_singleton] at hkn
        rw [hkn, alookup_aupdate_self, hq1]
        rfl
    · have hmap := h8 q hq1 k hk
      have hkne : k ≠ (c, sid) := by
        intro hkk
        rw [hkk, hfresh] at hmap
        simp at hmap
      show (alookup (aupdate st.mSessionMap (c, sid)
        (submitSess (c, sid) (submitUid uid0 req) req cb)) k).map Session.uid = some q.1
      rw [alookup_aupdate_ne _ _ _ _ hkne]
      exact hmap
  · intro q hq
    rcases mem_aupdate h2 hq with hq1 | ⟨hq1, _⟩
    · rw [hq1]
      exact hnewq_nodup
    · exact h9 q hq1
  · intro q hq hne2
    rcases mem_aupdate h2 hq with hq1 | ⟨hq1, _⟩
    · rw [hq1]
      simp
    · exact h10 q hq1 hne2

theorem submit_ric (env : UidPolicyEnv) (st : Sched) (c : ClientId) (sid : SessionId)
    (uid0 : Uid) (req : TranscodingRequest) (cb : Bool) (hric : RunningIsCur st) :
    RunningIsCur (submitState env st c sid uid0 req cb) := by
  intro k s hk hrun
  show st.mCurrentSession = some k
  by_cases hkk : k = (c, sid)
  · rw [hkk] at hk
    have hself : alookup (aupdate st.mSessionMap (c, sid)
        (submitSess (c, sid) (submitUid uid0 req) req cb)) (c, sid) =
        some (submitSess (c, sid) (submitUid uid0 req) req cb) := alookup_aupdate_self _ _ _
    rw [show alookup (submitState env st c sid uid0 req cb).mSessionMap (c, sid) =
      alookup (aupdate st.mSessionMap (c, sid)
        (submitSess (c, sid) (submitUid uid0 req) req cb)) (c, sid) from rfl] at hk
    rw [hself] at hk
    injection hk with hk
    rw [← hk] at hrun
    exact SessionState.noConfusion hrun
  · rw [show alookup (submitState env st c sid uid0 req cb).mSessionMap k =
      alookup (aupdate st.mSessionMap (c, sid)
        (submitSess (c, sid) (submitUid uid0 req) req cb)) k from rfl] at hk
    rw [alookup_aupdate_ne _ _ _ _ hkk] at hk
    exact hric k s hk hrun

theorem removeSession_none (env : UidPolicyEnv) (st : Sched) (k : SessionKey)
    (hs : alookup st.mSessionMap k = none) : removeSession_l env st k = (st, []) := by
  rw [removeSession_l, hs]
  simp only [removeGo]

theorem removeSession_eq (env : UidPolicyEnv) (st : Sched) (k : SessionKey) (sess : Session)
    (hs : alookup st.mSessionMap k = some sess) (hin : k ∈ queueOf st sess.uid) :
    removeSession_l env st k =
      ({ removeClearCur k (removeFromQueues env st k sess.uid).1 with
          mSessionMap := aerase (removeClearCur k
            (removeFromQueues env st k sess.uid).1).mSessionMap k },
       (removeFromQueues env st k sess.uid).2) := by
  rw [removeSession_l, hs]
  simp only [removeGo, if_pos hin]

theorem removeFromQueues_components (env : UidPolicyEnv) (st : Sched) (k : SessionKey)
    (uid : Uid) :
    (removeFromQueues env st k uid).1.mSessionMap = st.mSessionMap ∧
    (removeFromQueues env st k uid).1.mCurrentSession = st.mCurrentSession ∧
    (removeFromQueues env st k uid).1.mResourceLost = st.mResourceLost := by
  unfold removeFromQueues
  by_cases hc : uid ≠ OFFLINE_UID ∧ (queueOf st uid).erase k = []
  · rw [if_pos hc]
    exact ⟨rfl, rfl, rfl⟩
  · rw [if_neg hc]
    exact ⟨rfl, rfl, rfl⟩

theorem removeClearCur_components (k : SessionKey) (st : Sched) :
    (removeClearCur k st).mSessionMap = st.mSessionMap ∧
    (removeClearCur k st).mSessionQueues = st.mSessionQueues ∧
    (removeClearCur k st).mUidSortedList = st.mUidSortedList ∧
    (removeClearCur k st).mResourceLost = st.mResourceLost ∧
    (removeClearCur k st).mCurrentSession =
      (if st.mCurrentSession = some k then none else st.mCurrentSession) := by
  unfold removeClearCur
  by_cases hc : st.mCurrentSession = some k
  · rw [if_pos hc, if_pos hc]
    exact ⟨rfl, rfl, rfl, rfl, rfl⟩
  · rw [if_neg hc, if_neg hc]
    exact ⟨rfl, rfl, rfl, rfl, rfl⟩

theorem remove_lookup (env : UidPolicyEnv) (st : Sched) (k : SessionKey) (sess : Session)
    (hs : alookup st.mSessionMap k = some sess) (hin : k ∈ queueOf st sess.uid) :
    ∀ k2, alookup (removeSession_l env st k).1.mSessionMap k2 =
      if k2 = k then none else alookup st.mSessionMap k2 := by
  intro k2
  rw [removeSession_eq env st k sess hs hin]
  have hm : (removeClearCur k (removeFromQueues env st k sess.uid).1).mSessionMap =
      st.mSessionMap :=
    ((removeClearCur_components k _).1).trans (removeFromQueues_components env st k sess.uid).1
  show alookup (aerase (removeClearCur k
    (removeFromQueues env st k sess.uid).1).mSessionMap k) k2 = _
  rw [hm]
  by_cases hk2 : k2 = k
  · rw [if_pos hk2, hk2]
    exact alookup_aerase_self _ _
  · rw [if_neg hk2]
    exact alookup_aerase_ne _ _ _ hk2

theorem remove_cur (env : UidPolicyEnv) (st : Sched) (k : SessionKey) (sess : Session)
    (hs : alookup st.mSessionMap k = some sess) (hin : k ∈ queueOf st sess.uid) :
    (removeSession_l env st k).1.mCurrentSession =
      if st.mCurrentSession = some k then none else st.mCurrentSession := by
  rw [removeSession_eq env st k sess hs hin]
  show (removeClearCur k (removeFromQueues env st k sess.uid).1).mCurrentSession = _
  rw [(removeClearCur_components k _).2.2.2.2,
    (removeFromQueues_components env st k sess.uid).2.1]

theorem remove_effects (env : UidPolicyEnv) (st : Sched) (k : SessionKey) (sess : Session)
    (hs : alookup st.mSessionMap k = some sess) (hin : k ∈ queueOf st sess.uid) :
    ∀ e ∈ (removeSession_l env st k).2, ∃ u, e = Effect.unregisterMonitorUid u := by
  intro e he
  rw [removeSession_eq env st k sess hs hin] at he
  show ∃ u, e = Effect.unregisterMonitorUid u
  unfold removeFromQueues at he
  by_cases hc : sess.uid ≠ OFFLINE_UID ∧ (queueOf st sess.uid).erase k = []
  · rw [if_pos hc] at he
    simp at he
    exact ⟨sess.uid, he⟩
  · rw [if_neg hc] at he
    simp at he

theorem remove_ric (env : UidPolicyEnv) (st : Sched) (k : SessionKey) (sess : Session)
    (hs : alookup st.mSessionMap k = some sess) (hin : k ∈ queueOf st sess.uid)
    (hric : RunningIsCur st) : RunningIsCur (removeSession_l env st k).1 := by
  intro k2 s hk2 hrun
  rw [remove_lookup env st k sess hs hin k2] at hk2
  by_cases hkk : k2 = k
  · rw [if_pos hkk] at hk2
    exact Option.noConfusion hk2
  · rw [if_neg hkk] at hk2
    have h1 := hric k2 s hk2 hrun
    rw [remove_cur env st k sess hs hin]
    by_cases hck : st.mCurrentSession = some k
    · rw [h1] at hck
      injection hck with hck
      exact absurd hck hkk
    · rw [if_neg hck]
      exact h1

theorem mem_aupdate_of_ne {α β : Type} [DecidableEq α] {l : List (α × β)} {a : α} {b : β}
    {e : α × β} (he : e ∈ l) (hne : e.1 ≠ a) : e ∈ aupdate l a b := by
  induction l with
  | nil => simp at he
  | cons e0 t ih =>
    obtain ⟨k0, v0⟩ := e0
    by_cases hk : k0 = a
    · subst hk
      rw [show aupdate ((k0, v0) :: t) k0 b = (k0, b) :: t from by simp [aupdate]]
      rcases List.mem_cons.mp he with he | he
      · exact absurd (by rw [he]) hne
      · exact List.mem_cons_of_mem _ he
    · rw [show aupdate ((k0, v0) :: t) a b = (k0, v0) :: aupdate t a b from
        by simp [aupdate, hk]]
      rcases List.mem_cons.mp he with he | he
      · rw [he]
        exact List.mem_cons_self _ _
      · exact List.mem_cons_of_mem _ (ih he)

theorem remove_wf (env : UidPolicyEnv) (st : Sched) (k : SessionKey) (sess : Session)
    (hs : alookup st.mSessionMap k = some sess) (hwf : StructWF st) :
    StructWF (removeSession_l env st k).1 := by
  obtain ⟨h1, h2, h3, h4, h5, h6, h7, h8, h9, h10⟩ := hwf
  have hin : k ∈ queueOf st sess.uid := h7 (k, sess) (alookup_mem hs)
  obtain ⟨q0, hq0, hq0eq⟩ : ∃ q0, alookup st.mSessionQueues sess.uid = some q0 ∧
      queueOf st sess.uid = q0 := by
    cases ho : alookup st.mSessionQueues sess.uid with
    | none =>
      unfold queueOf at hin
      rw [ho] at hin
      simp at hin
    | some q0 => exact ⟨q0, rfl, by unfold queueOf; rw [ho]; rfl⟩
  have hq0nodup : q0.Nodup := h9 (sess.uid, q0) (alookup_mem hq0)
  have honly : ∀ q' ∈ st.mSessionQueues, q'.1 ≠ sess.uid → k ∉ q'.2 := by
    intro q' hq' hne hk
    have hmap := h8 q' hq' k hk
    rw [hs] at hmap
    injection hmap with hmap
    exact hne hmap.symm
  have hfm : (removeSession_l env st k).1.mSessionMap = aerase st.mSessionMap k := by
    rw [removeSession_eq env st k sess hs hin]
    show aerase (removeClearCur k (removeFromQueues env st k sess.uid).1).mSessionMap k = _
    rw [(removeClearCur_components k _).1, (removeFromQueues_components env st k sess.uid).1]
  have hfq : (removeSession_l env st k).1.mSessionQueues =
      (removeFromQueues env st k sess.uid).1.mSessionQueues := by
    rw [removeSession_eq env st k sess hs hin]
    exact (removeClearCur_components k _).2.1
  have hful : (removeSession_l env st k).1.mUidSortedList =
      (removeFromQueues env st k sess.uid).1.mUidSortedList := by
    rw [removeSession_eq env st k sess hs hin]
    exact (removeClearCur_components k _).2.2.1
  have hmapnodup : ((aerase st.mSessionMap k).map Prod.fst).Nodup := keys_aerase_nodup k h1
  have hlookup_er : ∀ k2, k2 ≠ k →
      alookup (aerase st.mSessionMap k) k2 = alookup st.mSessionMap k2 :=
    fun k2 hk2 => alookup_aerase_ne _ _ _ hk2
  by_cases hcase : sess.uid ≠ OFFLINE_UID ∧ (queueOf st sess.uid).erase k = []
  · -- the real-time queue became empty: drop the uid
    have hqs : (removeSession_l env st k).1.mSessionQueues =
        aerase (aupdate st.mSessionQueues sess.uid ((queueOf st sess.uid).erase k))
          sess.uid := by
      rw [hfq]
      unfold removeFromQueues
      rw [if_pos hcase]
    have hul : (removeSession_l env st k).1.mUidSortedList =
        moveUidsToTop_l env.topUids false
          (st.mUidSortedList.filter (fun x => x ≠ sess.uid)) := by
      rw [hful]
      unfold removeFromQueues
      rw [if_pos hcase]
    have hfilnodup : (st.mUidSortedList.filter (fun x => x ≠ sess.uid)).Nodup :=
      h3.filter _
    have hperm := moveUidsToTop_perm env.topUids false hfilnodup
    have hulmem : ∀ x, x ∈ (removeSession_l env st k).1.mUidSortedList ↔
        (x ∈ st.mUidSortedList ∧ x ≠ sess.uid) := by
      intro x
      rw [hul, hperm.mem_iff, List.mem_filter]
      simp
    have hqmem : ∀ q', q' ∈ (removeSession_l env st k).1.mSessionQueues →
        q' ∈ st.mSessionQueues ∧ q'.1 ≠ sess.uid := by
      intro q' hq'
      rw [hqs] at hq'
      obtain ⟨hq1, hq2⟩ := (mem_aerase _ _ _).mp hq'
      rcases mem_aupdate h2 hq1 with he | ⟨he, _⟩
      · rw [he] at hq2
        simp at hq2
      · exact ⟨he, hq2⟩
    have hlq : ∀ u, u ≠ sess.uid →
        alookup (removeSession_l env st k).1.mSessionQueues u =
          alookup st.mSessionQueues u := by
      intro u hu
      rw [hqs, alookup_aerase_ne _ _ _ hu, alookup_aupdate_ne _ _ _ _ hu]
    refine ⟨?_, ?_, ?_, ?_, ?_, ?_, ?_, ?_, ?_, ?_⟩
    · rw [hfm]
      exact hmapnodup
    · rw [hqs]
      exact keys_aerase_nodup _ (keys_aupdate_nodup _ _ h2)
    · rw [hul]
      exact hperm.nodup_iff.mpr hfilnodup
    · intro u hmem
      obtain ⟨humem, hune⟩ := (hulmem u).mp hmem
      rw [hlq u hune]
      exact h4 u humem
    · intro q' hq'
      obtain ⟨hq1, hq2⟩ := hqmem q' hq'
      exact (hulmem q'.1).mpr ⟨h5 q' hq1, hq2⟩
    · rw [hul]
      exact moveUidsToTop_getLast env.topUids false
        (filter_getLast_offline (by simp [Ne.symm hcase.1]) h6)
    · intro e hmem
      rw [hfm] at hmem
      obtain ⟨hem, hek⟩ := (mem_aerase _ _ _).mp hmem
      have hold := h7 e hem
      by_cases heu : e.2.uid = sess.uid
      · exfalso
        rw [heu, hq0eq] at hold
        have : e.1 ∈ q0.erase k := (List.mem_erase_of_ne hek).mpr hold
        rw [hq0eq] at hcase
        rw [hcase.2] at this
        simp at this
      · unfold queueOf
        rw [hlq e.2.uid heu]
        exact hold
    · intro q' hq' k2 hk2
      obtain ⟨hq1, hq2⟩ := hqmem q' hq'
      have hk2ne : k2 ≠ k := by
        intro hkk
        rw [hkk] at hk2
        exact honly q' hq1 hq2 hk2
      rw [hfm, alookup_aerase_ne _ _ _ hk2ne]
      exact h8 q' hq1 k2 hk2
    · intro q' hq'
      exact h9 q' (hqmem q' hq').1
    · intro q' hq' hne
      exact h10 q' (hqmem q' hq').1 hne
  · -- queue stays (offline queue, or still non-empty)
    have hqs : (removeSession_l env st k).1.mSessionQueues =
        aupdate st.mSessionQueues sess.uid ((queueOf st sess.uid).erase k) := by
      rw [hfq]
      unfold removeFromQueues
      rw [if_neg hcase]
    have hul : (removeSession_l env st k).1.mUidSortedList = st.mUidSortedList := by
      rw [hful]
      unfold removeFromQueues
      rw [if_neg hcase]
    have huidin : sess.uid ∈ st.mUidSortedList := h5 (sess.uid, q0) (alookup_mem hq0)
    refine ⟨?_, ?_, ?_, ?_, ?_, ?_, ?_, ?_, ?_, ?_⟩
    · rw [hfm]
      exact hmapnodup
    · rw [hqs]
      exact keys_aupdate_nodup _ _ h2
    · rw [hul]
      exact h3
    · intro u hmem
      rw [hul] at hmem
      rw [hqs]
      by_cases hu : u = sess.uid
      · rw [hu, alookup_aupdate_self]
        rfl
      · rw [alookup_aupdate_ne _ _ _ _ hu]
        exact h4 u hmem
    · intro q' hq'
      rw [hqs] at hq'
      rw [hul]
      rcases mem_aupdate h2 hq' with he | ⟨he, _⟩
      · rw [he]
        exact huidin
      · exact h5 q' he
    · rw [hul]
      exact h6
    · intro e hmem
      rw [hfm] at hmem
      obtain ⟨hem, hek⟩ := (mem_aerase _ _ _).mp hmem
      have hold := h7 e hem
      unfold queueOf
      rw [hqs]
      by_cases heu : e.2.uid = sess.uid
      · rw [heu, alookup_aupdate_self]
        simp only [Option.getD_some]
        rw [heu, hq0eq] at hold
        rw [hq0eq]
        exact (List.mem_erase_of_ne hek).mpr hold
      · rw [alookup_aupdate_ne _ _ _ _ heu]
        exact hold
    · intro q' hq' k2 hk2
      rw [hqs] at hq'
      rcases mem_aupdate h2 hq' with he | ⟨he, hne⟩
      · have hk2q0 : k2 ∈ q0 := by
          rw [he] at hk2
          simp only at hk2
          rw [hq0eq] at hk2
          exact List.mem_of_mem_erase hk2
        have hk2ne : k2 ≠ k := by
          rw [he] at hk2
          simp only at hk2
          rw [hq0eq] at hk2
          intro hkk
          rw [hkk] at hk2
          exact (hq0nodup.mem_erase_iff.mp hk2).1 rfl
        rw [hfm, alookup_aerase_ne _ _ _ hk2ne]
        have hmap := h8 (sess.uid, q0) (alookup_mem hq0) k2 hk2q0
        rw [he]
        exact hmap
      · have hk2ne : k2 ≠ k := by
          intro hkk
          rw [hkk] at hk2
          exact honly q' he hne hk2
        rw [hfm, alookup_aerase_ne _ _ _ hk2ne]
        exact h8 q' he k2 hk2
    · intro q' hq'
      rw [hqs] at hq'
      rcases mem_aupdate h2 hq' with he | ⟨he, _⟩
      · rw [he]
        exact hq0eq ▸ hq0nodup.erase k
      · exact h9 q' he
    · intro q' hq' hne
      rw [hqs] at hq'
      rcases mem_aupdate h2 hq' with he | ⟨he, _⟩
      · rw [he] at hne ⊢
        simp only at hne ⊢
        push_neg at hcase
        exact hcase hne
      · exact h10 q' he hne

theorem update_isSome (st : Sched) (k : SessionKey) :
    (alookup (updateCurrentSession_l st).1.mSessionMap k).isSome =
      (alookup st.mSessionMap k).isSome := by
  have h := proj_alookup (update_proj st) k
  cases h1 : alookup (updateCurrentSession_l st).1.mSessionMap k with
  | none =>
    rw [h1] at h
    cases h2 : alookup st.mSessionMap k with
    | none => rfl
    | some s =>
      rw [h2] at h
      simp at h
  | some s =>
    rw [h1] at h
    cases h2 : alookup st.mSessionMap k with
    | none =>
      rw [h2] at h
      simp at h
    | some s2 => rfl

theorem cancelStopEffs_mem (st : Sched) (k : SessionKey) (a : ClientId) (b : SessionId) :
    Effect.stop a b ∈ cancelStopEffs st k ↔
      ((a, b) = k ∧ ∃ s, alookup st.mSessionMap k = some s ∧
        s.state ≠ SessionState.NOT_STARTED) := by
  unfold cancelStopEffs
  cases hs : alookup st.mSessionMap k with
  | none => simp
  | some s =>
    show Effect.stop a b ∈
        (if s.state ≠ SessionState.NOT_STARTED then [Effect.stop k.1 k.2] else []) ↔ _
    by_cases hns : s.state ≠ SessionState.NOT_STARTED
    · rw [if_pos hns]
      constructor
      · intro h
        simp only [List.mem_singleton, Effect.stop.injEq] at h
        obtain ⟨h1, h2⟩ := h
        refine ⟨?_, s, rfl, hns⟩
        rw [h1, h2]
      · rintro ⟨hab, _, _, _⟩
        rw [← hab]
        simp
    · rw [if_neg hns]
      push_neg at hns
      constructor
      · intro h
        simp at h
      · rintro ⟨_, s', hs', hns'⟩
        injection hs' with hs'
        rw [← hs'] at hns'
        exact absurd hns hns'

theorem cancelLoop_spec (env : UidPolicyEnv) (ks : List SessionKey) :
    ∀ (st : Sched) (effs : List Effect),
    (∀ k ∈ ks, (alookup st.mSessionMap k).isSome = true) →
    ks.Nodup → StructWF st →
    StructWF (cancelLoop env st ks effs).1 ∧
    (∀ k2, alookup (cancelLoop env st ks effs).1.mSessionMap k2 =
      if k2 ∈ ks then none else alookup st.mSessionMap k2) ∧
    (∀ a b, Effect.stop a b ∈ (cancelLoop env st ks effs).2 ↔
      (Effect.stop a b ∈ effs ∨ ((a, b) ∈ ks ∧
        ∃ s, alookup st.mSessionMap (a, b) = some s ∧
          s.state ≠ SessionState.NOT_STARTED))) := by
  induction ks with
  | nil =>
    intro st effs _ _ hwf
    refine ⟨hwf, ?_, ?_⟩
    · intro k2
      simp [cancelLoop]
    · intro a b
      simp [cancelLoop]
  | cons k rest ih =>
    intro st effs hpre hnd hwf
    obtain ⟨s, hs⟩ : ∃ s, alookup st.mSessionMap k = some s :=
      Option.isSome_iff_exists.mp (hpre k (List.mem_cons_self _ _))
    have hin : k ∈ queueOf st s.uid := hwf.2.2.2.2.2.2.1 (k, s) (alookup_mem hs)
    have hknotin : k ∉ rest := (List.nodup_cons.mp hnd).1
    have hrestnd : rest.Nodup := (List.nodup_cons.mp hnd).2
    have hwf1 : StructWF (removeSession_l env st k).1 := remove_wf env st k s hs hwf
    have hlk := remove_lookup env st k s hs hin
    have hpre1 : ∀ k2 ∈ rest,
        (alookup (removeSession_l env st k).1.mSessionMap k2).isSome = true := by
      intro k2 hk2
      have hne : k2 ≠ k := by
        intro hh
        rw [hh] at hk2
        exact hknotin hk2
      rw [hlk k2, if_neg hne]
      exact hpre k2 (List.mem_cons_of_mem _ hk2)
    have hstep : cancelLoop env st (k :: rest) effs =
        cancelLoop env (removeSession_l env st k).1 rest
          (effs ++ cancelStopEffs st k ++ (removeSession_l env st k).2) := rfl
    obtain ⟨iwf, ilk, ieff⟩ := ih (removeSession_l env st k).1
      (effs ++ cancelStopEffs st k ++ (removeSession_l env st k).2) hpre1 hrestnd hwf1
    refine ⟨hstep ▸ iwf, ?_, ?_⟩
    · intro k2
      rw [hstep, ilk k2]
      by_cases hk2r : k2 ∈ rest
      · rw [if_pos hk2r, if_pos (List.mem_cons_of_mem _ hk2r)]
      · rw [if_neg hk2r, hlk k2]
        by_cases hk2k : k2 = k
        · rw [if_pos hk2k, if_pos (by rw [hk2k]; exact List.mem_cons_self _ _)]
        · rw [if_neg hk2k, if_neg (by
            intro hh
            rcases List.mem_cons.mp hh with h | h
            · exact hk2k h
            · exact hk2r h)]
    · intro a b
      rw [hstep, ieff a b]
      constructor
      · rintro (hmem | ⟨habr, s', hs', hns'⟩)
        · rcases List.mem_append.mp hmem with hmem | hmem
          · rcases List.mem_append.mp hmem with hmem | hmem
            · exact Or.inl hmem
            · obtain ⟨habk, s', hs', hns'⟩ := (cancelStopEffs_mem st k a b).mp hmem
              refine Or.inr ⟨?_, s', ?_, hns'⟩
              · rw [habk]
                exact List.mem_cons_self _ _
              · rw [habk]
                exact hs'
          · obtain ⟨u, hu⟩ := remove_effects env st k s hs hin _ hmem
            exact Effect.noConfusion hu
        · have habk : (a, b) ≠ k := fun hh => hknotin (hh ▸ habr)
          rw [hlk (a, b), if_neg habk] at hs'
          exact Or.inr ⟨List.mem_cons_of_mem _ habr, s', hs', hns'⟩
      · rintro (hmem | ⟨habm, s', hs', hns'⟩)
        · exact Or.inl (List.mem_append.mpr (Or.inl (List.mem_append.mpr (Or.inl hmem))))
        · rcases List.mem_cons.mp habm with habk | habr
          · refine Or.inl (List.mem_append.mpr (Or.inl (List.mem_append.mpr (Or.inr ?_))))
            exact (cancelStopEffs_mem st k a b).mpr ⟨habk, s', habk ▸ hs', hns'⟩
          · have habkne : (a, b) ≠ k := fun hh => hknotin (hh ▸ habr)
            refine Or.inr ⟨habr, s', ?_, hns'⟩
            rw [hlk (a, b), if_neg habkne]
            exact hs'

theorem initial_wf : StructWF initialController := by
  unfold StructWF
  decide

theorem initial_ric : RunningIsCur initialController := by
  intro k s hk _
  simp [initialController, alookup] at hk

theorem removeSession_skip (env : UidPolicyEnv) (st : Sched) (k : SessionKey) (s : Session)
    (hs : alookup st.mSessionMap k = some s) (hnin : k ∉ queueOf st s.uid) :
    removeSession_l env st k = (st, []) := by
  rw [removeSession_l, hs]
  simp only [removeGo, if_neg hnin]

theorem inv_remove (env : UidPolicyEnv) (st : Sched) (k : SessionKey) (hinv : Inv st) :
    Inv (removeSession_l env st k).1 := by
  cases hs : alookup st.mSessionMap k with
  | none =>
    rw [removeSession_none env st k hs]
    exact hinv
  | some s =>
    have hin : k ∈ queueOf st s.uid := hinv.1.2.2.2.2.2.2.1 (k, s) (alookup_mem hs)
    exact ⟨remove_wf env st k s hs hinv.1, remove_ric env st k s hs hin hinv.2⟩

theorem remove_ric_any (env : UidPolicyEnv) (st : Sched) (k : SessionKey)
    (hric : RunningIsCur st) : RunningIsCur (removeSession_l env st k).1 := by
  cases hs : alookup st.mSessionMap k with
  | none =>
    rw [removeSession_none env st k hs]
    exact hric
  | some s =>
    by_cases hin : k ∈ queueOf st s.uid
    · exact remove_ric env st k s hs hin hric
    · rw [removeSession_skip env st k s hs hin]
      exact hric

theorem cancelLoop_ric (env : UidPolicyEnv) (ks : List SessionKey) :
    ∀ (st : Sched) (effs : List Effect), RunningIsCur st →
      RunningIsCur (cancelLoop env st ks effs).1 := by
  induction ks with
  | nil =>
    intro st effs h
    exact h
  | cons k rest ih =>
    intro st effs h
    exact ih _ _ (remove_ric_any env st k h)

theorem cancelKeys_spec (st : Sched) (c : ClientId) (hwf : StructWF st) :
    (∀ k ∈ cancelKeys st c, (alookup st.mSessionMap k).isSome = true) ∧
    (cancelKeys st c).Nodup ∧
    (∀ k, k ∈ cancelKeys st c ↔ ∃ s, alookup st.mSessionMap k = some s ∧
      k.1 = c ∧ s.uid ≠ OFFLINE_UID) := by
  have h1 := hwf.1
  have hsub : List.Sublist (cancelKeys st c) (st.mSessionMap.map Prod.fst) := by
    unfold cancelKeys
    exact List.Sublist.map _ (List.filter_sublist _)
  have hmemiff : ∀ k, k ∈ cancelKeys st c ↔ ∃ s, alookup st.mSessionMap k = some s ∧
      k.1 = c ∧ s.uid ≠ OFFLINE_UID := by
    intro k
    unfold cancelKeys
    constructor
    · intro hk
      obtain ⟨e, he, hek⟩ := List.mem_map.mp hk
      obtain ⟨hem, hp⟩ := List.mem_filter.mp he
      simp only [decide_eq_true_eq] at hp
      refine ⟨e.2, ?_, ?_, hp.2⟩
      · rw [← hek]
        exact mem_alookup h1 hem
      · rw [← hek]
        exact hp.1
    · rintro ⟨s, hs, hc, hu⟩
      refine List.mem_map.mpr ⟨(k, s), List.mem_filter.mpr ⟨alookup_mem hs, ?_⟩, rfl⟩
      simp only [decide_eq_true_eq]
      exact ⟨hc, hu⟩
  refine ⟨?_, hsub.nodup h1, hmemiff⟩
  intro k hk
  obtain ⟨s, hs, _, _⟩ := (hmemiff k).mp hk
  rw [hs]
  rfl

theorem inv_update (st : Sched) (hinv : Inv st) : Inv (updateCurrentSession_l st).1 :=
  ⟨update_wf st hinv.1, update_ric st hinv.1 hinv.2⟩

theorem inv_submit (env : UidPolicyEnv) (st : Sched) (c : ClientId) (sid : SessionId)
    (uid0 : Uid) (req : TranscodingRequest) (cb : Bool) (hinv : Inv st) :
    Inv (submit env st c sid uid0 req cb).2.1 := by
  unfold submit
  by_cases hdup : (alookup st.mSessionMap (c, sid)).isSome = true
  · rw [if_pos hdup]
    exact hinv
  · rw [if_neg hdup]
    have hfresh : alookup st.mSessionMap (c, sid) = none := by
      cases ho : alookup st.mSessionMap (c, sid) with
      | none => rfl
      | some s =>
        rw [ho] at hdup
        exact absurd rfl hdup
    have hwf1 := submit_wf env st c sid uid0 req cb hinv.1 hfresh
    have hric1 := submit_ric env st c sid uid0 req cb hinv.2
    exact ⟨update_wf _ hwf1, update_ric _ hwf1 hric1⟩

theorem inv_cancel (env : UidPolicyEnv) (st : Sched) (c : ClientId) (sid : SessionId)
    (hinv : Inv st) : Inv (cancel env st c sid).2.1 := by
  unfold cancel
  by_cases hneg : sid < 0
  · rw [if_pos hneg]
    obtain ⟨hpre, hnd, _⟩ := cancelKeys_spec st c hinv.1
    obtain ⟨lwf, _, _⟩ := cancelLoop_spec env (cancelKeys st c) st [] hpre hnd hinv.1
    have lric := cancelLoop_ric env (cancelKeys st c) st [] hinv.2
    exact ⟨update_wf _ lwf, update_ric _ lwf lric⟩
  · rw [if_neg hneg]
    by_cases hnone : (alookup st.mSessionMap (c, sid)).isNone = true
    · rw [if_pos hnone]
      exact hinv
    · rw [if_neg hnone]
      have hpre : ∀ k ∈ [((c : ClientId), sid)], (alookup st.mSessionMap k).isSome = true := by
        intro k hk
        rw [List.mem_singleton] at hk
        subst hk
        cases ho : alookup st.mSessionMap (c, sid) with
        | none =>
          rw [ho] at hnone
          exact absurd rfl hnone
        | some s => rfl
      obtain ⟨lwf, _, _⟩ := cancelLoop_spec env [(c, sid)] st [] hpre
        (List.nodup_singleton _) hinv.1
      have lric := cancelLoop_ric env [(c, sid)] st [] hinv.2
      exact ⟨update_wf _ lwf, update_ric _ lwf lric⟩

theorem inv_onFinish (env : UidPolicyEnv) (st : Sched) (c : ClientId) (sid : SessionId)
    (hinv : Inv st) : Inv (onFinish env st c sid).1 := by
  unfold onFinish
  rcases notify_cases st c sid (fun st k sess =>
      ((updateCurrentSession_l (removeSession_l env st k).1).1,
       (if sess.cbAlive then [Effect.notifyFinished sid] else []) ++
         (removeSession_l env st k).2 ++
         (updateCurrentSession_l (removeSession_l env st k).1).2)) with h | ⟨s, _, _, h⟩
  · rw [h]
    exact hinv
  · rw [h]
    exact inv_update _ (inv_remove env st (c, sid) hinv)

theorem inv_onError (env : UidPolicyEnv) (st : Sched) (c : ClientId) (sid : SessionId)
    (err : Int) (hinv : Inv st) : Inv (onError env st c sid err).1 := by
  unfold onError
  rcases notify_cases st c sid (fun st k sess =>
      ((updateCurrentSession_l (removeSession_l env st k).1).1,
       (if sess.cbAlive then [Effect.notifyFailed sid err] else []) ++
         (removeSession_l env st k).2 ++
         (updateCurrentSession_l (removeSession_l env st k).1).2)) with h | ⟨s, _, _, h⟩
  · rw [h]
    exact hinv
  · rw [h]
    exact inv_update _ (inv_remove env st (c, sid) hinv)

theorem inv_onProgress (st : Sched) (c : ClientId) (sid : SessionId) (progress : Int)
    (hinv : Inv st) : Inv (onProgressUpdate st c sid progress).1 := by
  unfold onProgressUpdate
  rcases notify_cases st c sid (fun st k sess =>
      ({ st with mSessionMap := aupdate st.mSessionMap k { sess with lastProgress := progress } },
       if sess.cbAlive then [Effect.notifyProgress sid progress] else []))
    with h | ⟨s, hs, _, h⟩
  · rw [h]
    exact hinv
  · rw [h]
    constructor
    · exact struct_transfer hinv.1 rfl rfl (proj_aupdate hs rfl)
    · intro k2 s2 hk2 hrun
      have hk2a : alookup (aupdate st.mSessionMap (c, sid)
          { s with lastProgress := progress }) k2 = some s2 := hk2
      show st.mCurrentSession = some k2
      by_cases hkk : k2 = (c, sid)
      · rw [hkk, alookup_aupdate_self] at hk2a
        injection hk2a with hk2a
        rw [← hk2a] at hrun
        have hrun2 : s.state = SessionState.RUNNING := hrun
        rw [hkk]
        exact hinv.2 (c, sid) s hs hrun2
      · rw [alookup_aupdate_ne _ _ _ _ hkk] at hk2a
        exact hinv.2 k2 s2 hk2a hrun

theorem inv_onResourceLost (st : Sched) (hinv : Inv st) : Inv (onResourceLost st).1 := by
  unfold onResourceLost
  by_cases hl : st.mResourceLost = true
  · rw [if_pos hl]
    exact hinv
  · rw [if_neg hl]
    rcases resourceLostPause_cases st with hp | ⟨ck, cs, hcur, hs, _, hp⟩
    · rw [hp]
      constructor
      · exact struct_transfer hinv.1 rfl rfl rfl
      · intro k2 s2 hk2 hrun
        exact hinv.2 k2 s2 hk2 hrun
    · rw [hp]
      constructor
      · exact struct_transfer hinv.1 rfl rfl (proj_aupdate hs rfl)
      · intro k2 s2 hk2 hrun
        have hk2a : alookup (aupdate st.mSessionMap ck
            { cs with state := SessionState.PAUSED }) k2 = some s2 := hk2
        show st.mCurrentSession = some k2
        by_cases hkk : k2 = ck
        · rw [hkk, alookup_aupdate_self] at hk2a
          injection hk2a with hk2a
          rw [← hk2a] at hrun
          have hrun2 : SessionState.PAUSED = SessionState.RUNNING := hrun
          exact SessionState.noConfusion hrun2
        · rw [alookup_aupdate_ne _ _ _ _ hkk] at hk2a
          exact hinv.2 k2 s2 hk2a hrun

theorem inv_onTopUids (st : Sched) (uids : Finset Uid) (hinv : Inv st) :
    Inv (onTopUidsChanged st uids).1 := by
  unfold onTopUidsChanged
  by_cases hu : uids = ∅
  · rw [if_pos hu]
    exact hinv
  · rw [if_neg hu]
    have hwf1 : StructWF { st with
        mUidSortedList := moveUidsToTop_l uids true st.mUidSortedList } := by
      obtain ⟨h1, h2, h3, h4, h5, h6, h7, h8, h9, h10⟩ := hinv.1
      have hperm := moveUidsToTop_perm uids true h3
      refine ⟨h1, h2, hperm.nodup_iff.mpr h3, ?_, ?_,
        moveUidsToTop_getLast uids true h6, h7, h8, h9, h10⟩
      · intro u hmem
        exact h4 u (hperm.mem_iff.mp hmem)
      · intro q hq
        exact hperm.mem_iff.mpr (h5 q hq)
    have hric1 : RunningIsCur { st with
        mUidSortedList := moveUidsToTop_l uids true st.mUidSortedList } :=
      fun k s hk hrun => hinv.2 k s hk hrun
    exact ⟨update_wf _ hwf1, update_ric _ hwf1 hric1⟩

theorem inv_onResourceAvailable (st : Sched) (hinv : Inv st) :
    Inv (onResourceAvailable st).1 := by
  by_cases hl : st.mResourceLost = true
  · have he : (onResourceAvailable st).1 =
        (updateCurrentSession_l { st with mResourceLost := false }).1 := by
      simp [onResourceAvailable, hl]
    rw [he]
    have hwf1 : StructWF { st with mResourceLost := false } :=
      struct_transfer hinv.1 rfl rfl rfl
    have hric1 : RunningIsCur { st with mResourceLost := false } :=
      fun k s hk hrun => hinv.2 k s hk hrun
    exact ⟨update_wf _ hwf1, update_ric _ hwf1 hric1⟩
  · have he : (onResourceAvailable st).1 = st := by
      simp [onResourceAvailable, hl]
    rw [he]
    exact hinv

theorem reachable_inv {st : Sched} (h : Reachable st) : Inv st := by
  induction h with
  | init => exact ⟨initial_wf, initial_ric⟩
  | step hr hstep ih =>
    rename_i st0 st1
    cases hstep with
    | submit env c sid uid req cb => exact inv_submit env st0 c sid uid req cb ih
    | cancel env c sid => exact inv_cancel env st0 c sid ih
    | onStarted c sid =>
      rw [onStarted_sched st0 c sid]
      exact ih
    | onPaused c sid =>
      rw [onPaused_sched st0 c sid]
      exact ih
    | onResumed c sid =>
      rw [onResumed_sched st0 c sid]
      exact ih
    | onFinish env c sid => exact inv_onFinish env st0 c sid ih
    | onError env c sid err => exact inv_onError env st0 c sid err ih
    | onProgressUpdate c sid progress => exact inv_onProgress st0 c sid progress ih
    | onResourceLost => exact inv_onResourceLost st0 ih
    | onTopUidsChanged uids => exact inv_onTopUids st0 uids ih
    | onResourceAvailable => exact inv_onResourceAvailable st0 ih

theorem update_no_start (st : Sched) (hl : st.mResourceLost = true) :
    ∀ a b, Effect.start a b ∉ (updateCurrentSession_l st).2 := by
  intro a b hmem
  rw [updateCurrentSession_l] at hmem
  cases htop : getTopSession_l st with
  | none =>
    rw [htop] at hmem
    simp only [updateCurrentGo] at hmem
    simp at hmem
  | some topKey =>
    rw [htop] at hmem
    simp only [updateCurrentGo] at hmem
    by_cases hcond : some topKey ≠ st.mCurrentSession ∨
        (alookup st.mSessionMap topKey).map Session.state ≠ some SessionState.RUNNING
    · rw [if_pos hcond] at hmem
      have hpl : (pauseCurrentIfRunning st).1.mResourceLost = true := by
        rw [(pause_components st).2.2.1]
        exact hl
      rw [if_pos hpl] at hmem
      rcases pause_cases st with hp | ⟨ck, cs, _, _, _, hp⟩
      · rw [hp] at hmem
        simp at hmem
      · rw [hp] at hmem
        simp at hmem
    · rw [if_neg hcond] at hmem
      simp at hmem

theorem update_lookup_not_running (st : Sched) (k : SessionKey) (s : Session)
    (hs : alookup st.mSessionMap k = some s)
    (hns : s.state ≠ SessionState.RUNNING)
    (hl : st.mResourceLost = true) :
    alookup (updateCurrentSession_l st).1.mSessionMap k = some s := by
  rw [updateCurrentSession_l]
  cases htop : getTopSession_l st with
  | none =>
    simp only [updateCurrentGo]
    exact hs
  | some topKey =>
    simp only [updateCurrentGo]
    by_cases hcond : some topKey ≠ st.mCurrentSession ∨
        (alookup st.mSessionMap topKey).map Session.state ≠ some SessionState.RUNNING
    · rw [if_pos hcond]
      have hpl : (pauseCurrentIfRunning st).1.mResourceLost = true := by
        rw [(pause_components st).2.2.1]
        exact hl
      rw [if_pos hpl]
      show alookup (pauseCurrentIfRunning st).1.mSessionMap k = some s
      rcases pause_cases st with hp | ⟨ck, cs, _, hcs, hrun, hp⟩
      · rw [hp]
        exact hs
      · rw [hp]
        show alookup (aupdate st.mSessionMap ck
          { cs with state := SessionState.PAUSED }) k = some s
        by_cases hkc : k = ck
        · exfalso
          rw [hkc, hcs] at hs
          injection hs with hs
          rw [hs] at hrun
          exact hns hrun
        · rw [alookup_aupdate_ne _ _ _ _ hkc]
          exact hs
    · rw [if_neg hcond]
      exact hs

theorem update_effects_shape (st : Sched) :
    ∀ e ∈ (updateCurrentSession_l st).2, (∃ a b, e = Effect.pause a b) ∨
      (∃ a b, e = Effect.start a b) ∨ (∃ a b, e = Effect.resume a b) := by
  intro e hmem
  rw [updateCurrentSession_l] at hmem
  cases htop : getTopSession_l st with
  | none =>
    rw [htop] at hmem
    simp only [updateCurrentGo] at hmem
    simp at hmem
  | some topKey =>
    rw [htop] at hmem
    simp only [updateCurrentGo] at hmem
    by_cases hcond : some topKey ≠ st.mCurrentSession ∨
        (alookup st.mSessionMap topKey).map Session.state ≠ some SessionState.RUNNING
    · rw [if_pos hcond] at hmem
      have hpause : ∀ e2 ∈ (pauseCurrentIfRunning st).2,
          ∃ a b, e2 = Effect.pause a b := by
        intro e2 he2
        rcases pause_cases st with hp | ⟨ck, cs, _, _, _, hp⟩
        · rw [hp] at he2
          simp at he2
        · rw [hp] at he2
          simp at he2
          exact ⟨ck.1, ck.2, he2⟩
      by_cases hpl : (pauseCurrentIfRunning st).1.mResourceLost = true
      · rw [if_pos hpl] at hmem
        exact Or.inl (hpause e hmem)
      · rw [if_neg hpl] at hmem
        rcases List.mem_append.mp hmem with hmem | hmem
        · exact Or.inl (hpause e hmem)
        · rcases startTop_cases (pauseCurrentIfRunning st).1 topKey with ⟨_, h2⟩ | ⟨ts, _, h2⟩
          · rw [h2] at hmem
            simp at hmem
          · rw [h2] at hmem
            show _ ∨ _
            by_cases hts : ts.state = SessionState.NOT_STARTED
            · rw [if_pos hts] at hmem
              simp at hmem
              exact Or.inr (Or.inl ⟨topKey.1, topKey.2, hmem⟩)
            · rw [if_neg hts] at hmem
              by_cases htp : ts.state = SessionState.PAUSED
              · rw [if_pos htp] at hmem
                simp at hmem
                exact Or.inr (Or.inr ⟨topKey.1, topKey.2, hmem⟩)
              · rw [if_neg htp] at hmem
                simp at hmem
    · rw [if_neg hcond] at hmem
      simp at hmem

theorem submitStep_effects (env : UidPolicyEnv) (st : Sched) (uid : Uid) :
    ∀ e ∈ (submitStep env st uid).2, ∃ u, e = Effect.registerMonitorUid u := by
  intro e hmem
  unfold submitStep at hmem
  by_cases hu : uid ≠ OFFLINE_UID
  · rw [if_pos hu] at hmem
    by_cases hq : (alookup st.mSessionQueues uid).isNone = true
    · rw [if_pos hq] at hmem
      by_cases ht : env.isUidOnTop uid = true
      · rw [if_pos ht] at hmem
        simp at hmem
        exact ⟨uid, hmem⟩
      · rw [if_neg ht] at hmem
        simp at hmem
        exact ⟨uid, hmem⟩
    · rw [if_neg hq] at hmem
      by_cases hh : st.mUidSortedList.head? ≠ some uid
      · rw [if_pos hh] at hmem
        by_cases ht : env.isUidOnTop uid = true
        · rw [if_pos ht] at hmem
          simp at hmem
        · rw [if_neg ht] at hmem
          simp at hmem
      · rw [if_neg hh] at hmem
        simp at hmem
  · rw [if_neg hu] at hmem
    simp at hmem

theorem remove_knotin (env : UidPolicyEnv) (st : Sched) (k : SessionKey) (sess : Session)
    (hs : alookup st.mSessionMap k = some sess) (hwf : StructWF st) :
    ∀ q ∈ (removeSession_l env st k).1.mSessionQueues, k ∉ q.2 := by
  obtain ⟨h1, h2, h3, h4, h5, h6, h7, h8, h9, h10⟩ := hwf
  have hin : k ∈ queueOf st sess.uid := h7 (k, sess) (alookup_mem hs)
  obtain ⟨q0, hq0, hq0eq⟩ : ∃ q0, alookup st.mSessionQueues sess.uid = some q0 ∧
      queueOf st sess.uid = q0 := by
    cases ho : alookup st.mSessionQueues sess.uid with
    | none =>
      unfold queueOf at hin
      rw [ho] at hin
      simp at hin
    | some q0 => exact ⟨q0, rfl, by unfold queueOf; rw [ho]; rfl⟩
  have hq0nodup : q0.Nodup := h9 (sess.uid, q0) (alookup_mem hq0)
  have honly : ∀ q' ∈ st.mSessionQueues, q'.1 ≠ sess.uid → k ∉ q'.2 := by
    intro q' hq' hne hk
    have hmap := h8 q' hq' k hk
    rw [hs] at hmap
    injection hmap with hmap
    exact hne hmap.symm
  have hfq : (removeSession_l env st k).1.mSessionQueues =
      (removeFromQueues env st k sess.uid).1.mSessionQueues := by
    rw [removeSession_eq env st k sess hs hin]
    exact (removeClearCur_components k _).2.1
  have hknotq1 : k ∉ (queueOf st sess.uid).erase k := by
    rw [hq0eq]
    intro hk
    exact (hq0nodup.mem_erase_iff.mp hk).1 rfl
  intro q hq
  rw [hfq] at hq
  unfold removeFromQueues at hq
  by_cases hcase : sess.uid ≠ OFFLINE_UID ∧ (queueOf st sess.uid).erase k = []
  · rw [if_pos hcase] at hq
    obtain ⟨hq1, hq2⟩ := (mem_aerase _ _ _).mp hq
    rcases mem_aupdate h2 hq1 with he | ⟨he, _⟩
    · rw [he] at hq2
      simp at hq2
    · exact honly q he hq2
  · rw [if_neg hcase] at hq
    rcases mem_aupdate h2 hq with he | ⟨he, hne⟩
    · rw [he]
      exact hknotq1
    · exact honly q he hne

/-- C1: for every scheduler state reachable by any sequence of the public
operations, at most one session in the registry has state RUNNING: any two
registered sessions in state RUNNING have the same key. -/
theorem atMostOneRunningSpec (st : Sched) (h : Reachable st) (k1 k2 : SessionKey)
    (s1 s2 : Session) (h1 : alookup st.mSessionMap k1 = some s1)
    (h2 : alookup st.mSessionMap k2 = some s2)
    (hr1 : s1.state = SessionState.RUNNING) (hr2 : s2.state = SessionState.RUNNING) :
    k1 = k2 := by
  have hinv := reachable_inv h
  have hc1 := hinv.2 k1 s1 h1 hr1
  have hc2 := hinv.2 k2 s2 h2 hr2
  rw [hc1] at hc2
  exact Option.some.inj hc2

/-- C1 witness: the reachable state stA registers the RUNNING session
(1,1); instantiating both registry entries of the theorem at it. -/
theorem atMostOneRunningSpec_witness :
    alookup stA.mSessionMap (1, 1) = some sessA ∧
    sessA.state = SessionState.RUNNING ∧
    ((1, 1) : SessionKey) = ((1, 1) : SessionKey) :=
  ⟨by decide, by decide,
   atMostOneRunningSpec stA
    (Reachable.step Reachable.init
      (SchedStep.submit initialController envTop 1 1 100 reqRT true))
    (1, 1) (1, 1) sessA sessA (by decide) (by decide) (by decide) (by decide)⟩

/-- C10: in every reachable state whose session registry is non-empty, the
uid list starts with a uid whose session queue is non-empty, and the
top-session lookup dereferences exactly that queue's head, so the
dereference is well-defined. -/
theorem topQueueNonEmptySpec (st : Sched) (h : Reachable st)
    (hne : st.mSessionMap ≠ []) :
    ∃ u rest, st.mUidSortedList = u :: rest ∧ queueOf st u ≠ [] ∧
      getTopSession_l st = (queueOf st u).head? :=
  wf_top_some st (reachable_inv h).1 hne

/-- C10 witness: the reachable state stA has a non-empty registry and its
first uid's queue holds the top session. -/
theorem topQueueNonEmptySpec_witness :
    stA.mSessionMap ≠ [] ∧
    ∃ u rest, stA.mUidSortedList = u :: rest ∧ queueOf stA u ≠ [] ∧
      getTopSession_l stA = (queueOf stA u).head? :=
  ⟨by decide,
   topQueueNonEmptySpec stA
    (Reachable.step Reachable.init
      (SchedStep.submit initialController envTop 1 1 100 reqRT true))
    (by decide)⟩

/-- C4 counterexample: session (2,2) of the reachable state stAB is
registered (queued behind the running (1,1)) and still NOT_STARTED; the
onFinished event for it notifies nobody, removes nothing and leaves the
state unchanged, because notifyClient drops events for sessions that were
never started. The claim's "for every registered session" fails. -/
theorem onFinishedSpec_counterexample :
    (alookup stAB.mSessionMap (2, 2)).isSome = true ∧
    onFinish envTop stAB 2 2 = (stAB, []) := by
  constructor
  · decide
  · decide

/-- C4 (amended): for every registered session that has ever been started
(state not NOT_STARTED), the onFinished event notifies the session's live
client callback, removes the session from the registry and from every
queue, and re-points the current session at the top session of the
resulting state. -/
theorem onFinishedSpec (env : UidPolicyEnv) (st : Sched) (c : ClientId)
    (sid : SessionId) (s : Session) (hwf : StructWF st)
    (hs : alookup st.mSessionMap (c, sid) = some s)
    (hns : s.state ≠ SessionState.NOT_STARTED) :
    (s.cbAlive = true → Effect.notifyFinished sid ∈ (onFinish env st c sid).2) ∧
    alookup (onFinish env st c sid).1.mSessionMap (c, sid) = none ∧
    (∀ q ∈ (onFinish env st c sid).1.mSessionQueues, (c, sid) ∉ q.2) ∧
    (onFinish env st c sid).1.mCurrentSession =
      getTopSession_l (onFinish env st c sid).1 := by
  have heq : onFinish env st c sid =
      ((updateCurrentSession_l (removeSession_l env st (c, sid)).1).1,
       (if s.cbAlive then [Effect.notifyFinished sid] else []) ++
         (removeSession_l env st (c, sid)).2 ++
         (updateCurrentSession_l (removeSession_l env st (c, sid)).1).2) := by
    unfold onFinish
    rw [notifyClient, hs]
    simp only [notifyGo, if_neg hns]
  have hin : (c, sid) ∈ queueOf st s.uid :=
    hwf.2.2.2.2.2.2.1 ((c, sid), s) (alookup_mem hs)
  refine ⟨?_, ?_, ?_, ?_⟩
  · intro hcb
    rw [heq]
    show Effect.notifyFinished sid ∈ _
    refine List.mem_append.mpr (Or.inl (List.mem_append.mpr (Or.inl ?_)))
    rw [if_pos hcb]
    exact List.mem_singleton.mpr rfl
  · rw [heq]
    show alookup
      (updateCurrentSession_l (removeSession_l env st (c, sid)).1).1.mSessionMap
      (c, sid) = none
    have h1 : alookup (removeSession_l env st (c, sid)).1.mSessionMap (c, sid) = none := by
      rw [remove_lookup env st (c, sid) s hs hin (c, sid), if_pos rfl]
    have h2 := update_isSome (removeSession_l env st (c, sid)).1 (c, sid)
    cases ho : alookup
        (updateCurrentSession_l (removeSession_l env st (c, sid)).1).1.mSessionMap
        (c, sid) with
    | none => rfl
    | some s2 =>
      rw [ho, h1] at h2
      exact Bool.noConfusion h2
  · rw [heq]
    show ∀ q ∈
      (updateCurrentSession_l (removeSession_l env st (c, sid)).1).1.mSessionQueues,
      (c, sid) ∉ q.2
    intro q hq
    rw [(update_components (removeSession_l env st (c, sid)).1).1] at hq
    exact remove_knotin env st (c, sid) s hs hwf q hq
  · rw [heq]
    exact update_self_top (removeSession_l env st (c, sid)).1

/-- C4 witness: the ever-started session (1,1) of stA; its onFinished event
notifies, removes and re-evaluates as the amended claim states. -/
theorem onFinishedSpec_witness :
    StructWF stA ∧ alookup stA.mSessionMap (1, 1) = some sessA ∧
    sessA.state ≠ SessionState.NOT_STARTED ∧
    ((sessA.cbAlive = true → Effect.notifyFinished 1 ∈ (onFinish envTop stA 1 1).2) ∧
     alookup (onFinish envTop stA 1 1).1.mSessionMap (1, 1) = none ∧
     (∀ q ∈ (onFinish envTop stA 1 1).1.mSessionQueues,
        ((1 : ClientId), (1 : SessionId)) ∉ q.2) ∧
     (onFinish envTop stA 1 1).1.mCurrentSession =
       getTopSession_l (onFinish envTop stA 1 1).1) :=
  ⟨by unfold StructWF; decide, by decide, by decide,
   onFinishedSpec envTop stA 1 1 sessA (by unfold StructWF; decide)
     (by decide) (by decide)⟩

/-- C6: submitting a fresh session while the resource-lost flag is set
returns true, registers the session and leaves it NOT_STARTED, emits no
TranscoderInterface start call, and still points the current-session
pointer at the top session of the resulting state. -/
theorem submitWhileResourceLostSpec (env : UidPolicyEnv) (st : Sched) (c : ClientId)
    (sid : SessionId) (uid0 : Uid) (req : TranscodingRequest) (cb : Bool)
    (hlost : st.mResourceLost = true)
    (hfresh : alookup st.mSessionMap (c, sid) = none) :
    (submit env st c sid uid0 req cb).1 = true ∧
    (alookup (submit env st c sid uid0 req cb).2.1.mSessionMap (c, sid)).map
        Session.state = some SessionState.NOT_STARTED ∧
    (∀ a b, Effect.start a b ∉ (submit env st c sid uid0 req cb).2.2) ∧
    (submit env st c sid uid0 req cb).2.1.mCurrentSession =
      getTopSession_l (submit env st c sid uid0 req cb).2.1 := by
  have hns : ¬((alookup st.mSessionMap (c, sid)).isSome = true) := by
    rw [hfresh]
    simp
  have hsub : submit env st c sid uid0 req cb =
      (true, (updateCurrentSession_l (submitState env st c sid uid0 req cb)).1,
       (submitStep env st (submitUid uid0 req)).2 ++
         (updateCurrentSession_l (submitState env st c sid uid0 req cb)).2) := by
    unfold submit
    rw [if_neg hns]
  have hl1 : (submitState env st c sid uid0 req cb).mResourceLost = true := hlost
  have hlook1 : alookup (submitState env st c sid uid0 req cb).mSessionMap (c, sid) =
      some (submitSess (c, sid) (submitUid uid0 req) req cb) := alookup_aupdate_self _ _ _
  refine ⟨by rw [hsub], ?_, ?_, ?_⟩
  · rw [hsub]
    show (alookup
      (updateCurrentSession_l (submitState env st c sid uid0 req cb)).1.mSessionMap
      (c, sid)).map Session.state = _
    rw [update_lookup_not_running (submitState env st c sid uid0 req cb) (c, sid)
      (submitSess (c, sid) (submitUid uid0 req) req cb) hlook1
      (fun hh => SessionState.noConfusion hh) hl1]
    rfl
  · rw [hsub]
    intro a b hmem
    rcases List.mem_append.mp hmem with hmem | hmem
    · obtain ⟨u, hu⟩ := submitStep_effects env st (submitUid uid0 req) _ hmem
      exact Effect.noConfusion hu
    · exact update_no_start (submitState env st c sid uid0 req cb) hl1 a b hmem
  · rw [hsub]
    exact update_self_top (submitState env st c sid uid0 req cb)

/-- C6 witness: submitting session (1,1) to the resource-lost fresh
controller stLost. -/
theorem submitWhileResourceLostSpec_witness :
    stLost.mResourceLost = true ∧
    alookup stLost.mSessionMap (1, 1) = none ∧
    ((submit envTop stLost 1 1 100 reqRT true).1 = true ∧
     (alookup (submit envTop stLost 1 1 100 reqRT true).2.1.mSessionMap (1, 1)).map
         Session.state = some SessionState.NOT_STARTED ∧
     (∀ a b, Effect.start a b ∉ (submit envTop stLost 1 1 100 reqRT true).2.2) ∧
     (submit envTop stLost 1 1 100 reqRT true).2.1.mCurrentSession =
       getTopSession_l (submit envTop stLost 1 1 100 reqRT true).2.1) :=
  ⟨by decide, by decide,
   submitWhileResourceLostSpec envTop stLost 1 1 100 reqRT true (by decide) (by decide)⟩

/-- C7: cancel with a negative session id returns true; afterwards a key is
unregistered exactly when it already was or when it belongs to the given
client with a non-OFFLINE submitter uid (so the client's OFFLINE sessions
stay registered); and a transcoder stop call is issued exactly for the
removed sessions that were ever started. -/
theorem cancelAllSpec (env : UidPolicyEnv) (st : Sched) (c : ClientId) (sid : SessionId)
    (hwf : StructWF st) (hneg : sid < 0) :
    (cancel env st c sid).1 = true ∧
    (∀ k, alookup (cancel env st c sid).2.1.mSessionMap k = none ↔
      (alookup st.mSessionMap k = none ∨
        ∃ s, alookup st.mSessionMap k = some s ∧ k.1 = c ∧ s.uid ≠ OFFLINE_UID)) ∧
    (∀ a b, Effect.stop a b ∈ (cancel env st c sid).2.2 ↔
      ∃ s, alookup st.mSessionMap (a, b) = some s ∧ a = c ∧ s.uid ≠ OFFLINE_UID ∧
        s.state ≠ SessionState.NOT_STARTED) := by
  obtain ⟨hpre, hnd, hmemiff⟩ := cancelKeys_spec st c hwf
  obtain ⟨lwf, llk, leff⟩ := cancelLoop_spec env (cancelKeys st c) st [] hpre hnd hwf
  have hcan : cancel env st c sid =
      (true,
       (updateCurrentSession_l (cancelLoop env st (cancelKeys st c) []).1).1,
       (cancelLoop env st (cancelKeys st c) []).2 ++
         (updateCurrentSession_l (cancelLoop env st (cancelKeys st c) []).1).2) := by
    unfold cancel
    rw [if_pos hneg]
  refine ⟨by rw [hcan], ?_, ?_⟩
  · intro k
    rw [hcan]
    show alookup
      (updateCurrentSession_l (cancelLoop env st (cancelKeys st c) []).1).1.mSessionMap
      k = none ↔ _
    have hiso := update_isSome (cancelLoop env st (cancelKeys st c) []).1 k
    have hupd_none : (alookup
        (updateCurrentSession_l (cancelLoop env st (cancelKeys st c) []).1).1.mSessionMap
        k = none) ↔
        (alookup (cancelLoop env st (cancelKeys st c) []).1.mSessionMap k = none) := by
      constructor
      · intro h0
        cases ho : alookup (cancelLoop env st (cancelKeys st c) []).1.mSessionMap k with
        | none => rfl
        | some s =>
          rw [h0, ho] at hiso
          exact Bool.noConfusion hiso
      · intro h0
        cases ho : alookup
            (updateCurrentSession_l
              (cancelLoop env st (cancelKeys st c) []).1).1.mSessionMap k with
        | none => rfl
        | some s =>
          rw [h0, ho] at hiso
          exact Bool.noConfusion hiso
    rw [hupd_none, llk k]
    by_cases hkc : k ∈ cancelKeys st c
    · rw [if_pos hkc]
      constructor
      · intro _
        obtain ⟨s, hs, hc, hu⟩ := (hmemiff k).mp hkc
        exact Or.inr ⟨s, hs, hc, hu⟩
      · intro _
        rfl
    · rw [if_neg hkc]
      constructor
      · intro h0
        exact Or.inl h0
      · rintro (h0 | ⟨s, hs, hc, hu⟩)
        · exact h0
        · exact absurd ((hmemiff k).mpr ⟨s, hs, hc, hu⟩) hkc
  · intro a b
    rw [hcan]
    show Effect.stop a b ∈
      (cancelLoop env st (cancelKeys st c) []).2 ++
        (updateCurrentSession_l (cancelLoop env st (cancelKeys st c) []).1).2 ↔ _
    constructor
    · intro hmem
      rcases List.mem_append.mp hmem with hmem | hmem
      · rcases (leff a b).mp hmem with hm | ⟨hks, s, hs, hnss⟩
        · simp at hm
        · obtain ⟨s', hs', hc', hu'⟩ := (hmemiff (a, b)).mp hks
          rw [hs'] at hs
          injection hs with hs
          refine ⟨s', hs', hc', hu', ?_⟩
          rw [hs]
          exact hnss
      · rcases update_effects_shape (cancelLoop env st (cancelKeys st c) []).1 _ hmem
          with ⟨x, y, hxy⟩ | ⟨x, y, hxy⟩ | ⟨x, y, hxy⟩
        · exact Effect.noConfusion hxy
        · exact Effect.noConfusion hxy
        · exact Effect.noConfusion hxy
    · rintro ⟨s, hs, hc, hu, hnss⟩
      refine List.mem_append.mpr (Or.inl ((leff a b).mpr (Or.inr ⟨?_, s, hs, hnss⟩)))
      exact (hmemiff (a, b)).mpr ⟨s, hs, hc, hu⟩

/-- C7 witness: in stMix client 1 owns the RUNNING real-time session (1,1)
and the OFFLINE session (1,5), client 2 owns the real-time (2,2);
cancel(1, -1) is instantiated there. -/
theorem cancelAllSpec_witness :
    StructWF stMix ∧ ((-1 : SessionId) < 0) ∧
    ((cancel envTop stMix 1 (-1)).1 = true ∧
     (∀ k, alookup (cancel envTop stMix 1 (-1)).2.1.mSessionMap k = none ↔
       (alookup stMix.mSessionMap k = none ∨
         ∃ s, alookup stMix.mSessionMap k = some s ∧ k.1 = 1 ∧ s.uid ≠ OFFLINE_UID)) ∧
     (∀ a b, Effect.stop a b ∈ (cancel envTop stMix 1 (-1)).2.2 ↔
       ∃ s, alookup stMix.mSessionMap (a, b) = some s ∧ a = 1 ∧ s.uid ≠ OFFLINE_UID ∧
         s.state ≠ SessionState.NOT_STARTED)) :=
  ⟨by unfold StructWF; decide, by decide,
   cancelAllSpec envTop stMix 1 (-1) (by unfold StructWF; decide) (by decide)⟩
